import Mathlib

/-!
# Admiral Sink Game: a shallow embedding of `admiral-sink-game.c`

The engine functions of the C program are rendered as Lean functions.

* An `int grid[GRID_SIZE][GRID_SIZE]` is a function `Fin 8 → Fin 8 → Int`,
  row index first (`grid y x` is `grid[y][x]`).
* C `int` variables that hold coordinates are `Int`; every array access of
  the source is guarded by a bounds test, and the embedding keeps the guard.
* `rand()` is a finite sequence of draws (natural numbers) that is consumed
  front to back.  A function that needs a draw when none is left has no
  result (`none`); `exit(1)` also has no result.
* Function-local `static` variables and the GTK widgets the engine writes to
  are explicit fields of the state that is passed around.
-/

namespace AdmiralSink

/-! ## Constants -/

/-- Macro `GRID_SIZE`, the side of the square grid. -/
@[reducible] def GRID_SIZE : Int := 8
/-- Macro `GAME_CONTINUE`: value of `gameStatus[0]` while the match runs. -/
@[reducible] def GAME_CONTINUE : Int := 0
/-- Macro `GAME_OVER`: value of `gameStatus[0]` once the match has ended. -/
@[reducible] def GAME_OVER : Int := 1
/-- Macro `PARENT_TURN`: value of `gameStatus[1]` when the parent moves next. -/
@[reducible] def PARENT_TURN : Int := 0
/-- Macro `CHILD_TURN`: value of `gameStatus[1]` when the child moves next. -/
@[reducible] def CHILD_TURN : Int := 1

/-! ## Grids -/

/-- An `int [GRID_SIZE][GRID_SIZE]` array; `g y x` is `g[y][x]`.  Cell values
used by the program: `0` empty, `1` ship, `2` hit, `-1` miss. -/
abbrev Grid := Fin 8 → Fin 8 → Int

/-- The bounds test `x >= 0 && x < GRID_SIZE && y >= 0 && y < GRID_SIZE`. -/
def inBounds (x y : Int) : Bool :=
  decide (0 ≤ x) && decide (x < GRID_SIZE) && decide (0 ≤ y) && decide (y < GRID_SIZE)

/-- Read of `g[y][x]` with `int` indices.  The source only reads after a
bounds test; outside the array the embedding yields `0`. -/
def Grid.read (g : Grid) (y x : Int) : Int :=
  if h : (0 ≤ y ∧ y < 8) ∧ (0 ≤ x ∧ x < 8) then
    g ⟨y.toNat, by omega⟩ ⟨x.toNat, by omega⟩
  else 0

/-- Assignment `g[y][x] = v` with `int` indices (a no-op outside the array,
which the source never attempts). -/
def Grid.write (g : Grid) (y x : Int) (v : Int) : Grid :=
  fun r c => if (r.val : Int) = y ∧ (c.val : Int) = x then v else g r c

/-- Result of `initializeGrid`: `memset` to zero. -/
def initializeGrid : Grid := fun _ _ => 0

/-! ## Fleet -/

/-- The C struct `Ship`: an `int length` and a `char name[20]`. -/
structure Ship where
  length : Int
  name : String

/-- The global `ships[]` table. -/
def ships : List Ship :=
  [⟨4, "Battleship"⟩, ⟨3, "Cruiser"⟩, ⟨3, "Cruiser"⟩, ⟨2, "Destroyer"⟩, ⟨2, "Destroyer"⟩]

/-- The expression `placeX = x + (horizontal ? i : 0)`. -/
def placeXOf (x horizontal : Int) (i : Nat) : Int :=
  x + (if horizontal ≠ 0 then (i : Int) else 0)

/-- The expression `placeY = y + (horizontal ? 0 : i)`. -/
def placeYOf (y horizontal : Int) (i : Nat) : Int :=
  y + (if horizontal ≠ 0 then 0 else (i : Int))

/-- The two inner loops of `isValidPlacement` for one cell: `true` when no
in-bounds cell around `(placeX, placeY)`, other than the cell itself, is
non-zero (the loops run to completion), `false` when they hit `return 0`. -/
def surroundingsClear (grid : Grid) (placeX placeY : Int) : Bool :=
  ([-1, 0, 1] : List Int).all fun dx =>
    ([-1, 0, 1] : List Int).all fun dy =>
      let checkX := placeX + dx
      let checkY := placeY + dy
      !(inBounds checkX checkY &&
        (grid.read checkY checkX != 0 && !(checkX == placeX && checkY == placeY)))

/-- Body of the outer loop of `isValidPlacement` for index `i`: `false` when
the iteration executes `return 0`. -/
def placementStepOk (grid : Grid) (x y horizontal : Int) (i : Nat) : Bool :=
  let placeX := placeXOf x horizontal i
  let placeY := placeYOf y horizontal i
  !(decide (placeX < 0) || decide (placeX ≥ GRID_SIZE) ||
      decide (placeY < 0) || decide (placeY ≥ GRID_SIZE)) &&
  !(grid.read placeY placeX != 0) &&
  surroundingsClear grid placeX placeY

/-- Function `isValidPlacement`: the loop `for (i = 0; i < length; i++)` returns `0` at
the first failing iteration and `1` after the last one. -/
def isValidPlacement (grid : Grid) (x y length horizontal : Int) : Int :=
  if (List.range length.toNat).all (placementStepOk grid x y horizontal) then 1 else 0

/-- The write loop of `placeShip`: `grid[placeY][placeX] = 1` for
`i = 0 .. length - 1`. -/
def markShip (grid : Grid) (x y length horizontal : Int) : Grid :=
  (List.range length.toNat).foldl
    (fun g i => g.write (placeYOf y horizontal i) (placeXOf x horizontal i) 1) grid

/-- The `while (!placed && attempts < 1000)` loop of `placeShip`, with the
number of attempts still allowed as the recursion argument.  `none` when the
budget is spent (`exit(1)`) or the draws run out. -/
def placeShipLoop (length : Int) : Nat → Grid → List Nat → Option (Grid × List Nat)
  | 0, _, _ => none
  | k + 1, grid, rx :: ry :: rh :: rest =>
      let x : Int := ((rx % 8 : Nat) : Int)
      let y : Int := ((ry % 8 : Nat) : Int)
      let horizontal : Int := ((rh % 2 : Nat) : Int)
      if isValidPlacement grid x y length horizontal ≠ 0 then
        some (markShip grid x y length horizontal, rest)
      else placeShipLoop length k grid rest
  | _ + 1, _, _ => none

/-- Function `placeShip(grid, length)`. -/
def placeShip (grid : Grid) (length : Int) (draws : List Nat) : Option (Grid × List Nat) :=
  placeShipLoop length 1000 grid draws

/-- The loop of `placeAllShips` over the remaining entries of `ships`. -/
def placeShipsFrom : List Ship → Grid → List Nat → Option (Grid × List Nat)
  | [], grid, draws => some (grid, draws)
  | s :: more, grid, draws =>
      match placeShip grid s.length draws with
      | none => none
      | some (grid1, draws1) => placeShipsFrom more grid1 draws1

/-- Function `placeAllShips(grid)`. -/
def placeAllShips (grid : Grid) (draws : List Nat) : Option (Grid × List Nat) :=
  placeShipsFrom ships grid draws

/-- Function `checkGameOver`: `0` as soon as a cell equals `1`, else `1`. -/
def checkGameOver (grid : Grid) : Int :=
  if (List.finRange 8).any (fun y => (List.finRange 8).any (fun x => grid y x == 1)) then 0
  else 1

/-! ## Game state and attacks -/

/-- The C struct `GameState`; `gameStatus0` and `gameStatus1` are
`gameStatus[0]` (phase) and `gameStatus[1]` (turn). -/
structure GameState where
  parentGrid : Grid
  childGrid : Grid
  parentAttackedCells : Grid
  childAttackedCells : Grid
  gameStatus0 : Int
  gameStatus1 : Int

/-- Function `isValidAttack`. -/
def isValidAttack (attackedCells : Grid) (x y : Int) : Int :=
  if inBounds x y && attackedCells.read y x == 0 then 1 else 0

/-- The local table `directions` of both attack functions: left, right, up,
down, as `(dx, dy)`. -/
def directions : List (Int × Int) := [(-1, 0), (1, 0), (0, -1), (0, 1)]

/-- The loop `for (i = 0; i < 4; i++)` over the remaining directions: the
first neighbour of `(lastHitX, lastHitY)` accepted by `isValidAttack`
(the `goto attack`), or `none` when the loop falls through. -/
def huntLoop (attackedCells : Grid) (lastHitX lastHitY : Int) :
    List (Int × Int) → Option (Int × Int)
  | [] => none
  | d :: more =>
      let x := lastHitX + d.1
      let y := lastHitY + d.2
      if isValidAttack attackedCells x y ≠ 0 then some (x, y)
      else huntLoop attackedCells lastHitX lastHitY more

/-- The loop `do ... while (!isValidAttack(...))`: two draws per round;
`none` when the draws run out before a valid cell is drawn. -/
def randomLoop (attackedCells : Grid) : List Nat → Option (Int × Int × List Nat)
  | rx :: ry :: rest =>
      let x : Int := ((rx % 8 : Nat) : Int)
      let y : Int := ((ry % 8 : Nat) : Int)
      if isValidAttack attackedCells x y ≠ 0 then some (x, y, rest)
      else randomLoop attackedCells rest
  | _ => none

/-- The function-local statics `lastHitX`, `lastHitY` of one attack
function. -/
structure Hunt where
  lastHitX : Int
  lastHitY : Int

/-- What is known at the label `attack`: the chosen cell, the statics as the
code before the label left them, and the draws that remain. -/
structure Target where
  x : Int
  y : Int
  hunt : Hunt
  draws : List Nat

/-- The code of `parentAttack` and `childAttack` from the top of the function
to the label `attack`; the two copies differ only in the tracker they read. -/
def selectTarget (attackedCells : Grid) (hunt : Hunt) (draws : List Nat) : Option Target :=
  if hunt.lastHitX ≠ -1 ∧ hunt.lastHitY ≠ -1 then
    match huntLoop attackedCells hunt.lastHitX hunt.lastHitY directions with
    | some (x, y) => some ⟨x, y, hunt, draws⟩
    | none =>
        match randomLoop attackedCells draws with
        | some (x, y, rest) => some ⟨x, y, ⟨-1, -1⟩, rest⟩
        | none => none
  else
    match randomLoop attackedCells draws with
    | some (x, y, rest) => some ⟨x, y, hunt, rest⟩
    | none => none

/-- Everything an attack function leaves behind: the game state, its own
statics, the remaining draws, the out-parameters `*hitX`, `*hitY` and the
return value (`1` hit, `0` miss). -/
structure AttackOutcome where
  gameState : GameState
  hunt : Hunt
  draws : List Nat
  hitX : Int
  hitY : Int
  result : Int

/-- Function `parentAttack` (its `printf` lines to standard output are left out). -/
def parentAttack (gameState : GameState) (hunt : Hunt) (draws : List Nat) :
    Option AttackOutcome :=
  match selectTarget gameState.parentAttackedCells hunt draws with
  | none => none
  | some t =>
      let marked : GameState :=
        { gameState with
          parentAttackedCells := gameState.parentAttackedCells.write t.y t.x 1 }
      if marked.childGrid.read t.y t.x = 1 then
        some { gameState := { marked with childGrid := marked.childGrid.write t.y t.x 2 }
               hunt := ⟨t.x, t.y⟩, draws := t.draws, hitX := t.x, hitY := t.y, result := 1 }
      else
        some { gameState := { marked with childGrid := marked.childGrid.write t.y t.x (-1) }
               hunt := t.hunt, draws := t.draws, hitX := t.x, hitY := t.y, result := 0 }

/-- Function `childAttack` (its `printf` lines to standard output are left out). -/
def childAttack (gameState : GameState) (hunt : Hunt) (draws : List Nat) :
    Option AttackOutcome :=
  match selectTarget gameState.childAttackedCells hunt draws with
  | none => none
  | some t =>
      let marked : GameState :=
        { gameState with
          childAttackedCells := gameState.childAttackedCells.write t.y t.x 1 }
      if marked.parentGrid.read t.y t.x = 1 then
        some { gameState := { marked with parentGrid := marked.parentGrid.write t.y t.x 2 }
               hunt := ⟨t.x, t.y⟩, draws := t.draws, hitX := t.x, hitY := t.y, result := 1 }
      else
        some { gameState := { marked with parentGrid := marked.parentGrid.write t.y t.x (-1) }
               hunt := t.hunt, draws := t.draws, hitX := t.x, hitY := t.y, result := 0 }

/-! ## The turn step -/

/-- Everything `playGame` reads or writes: the shared `GameState`, the statics
of the two attack functions, the text of `statusLabel` and `turnLabel`, the
text held by `movesBuffer`, and the draws `rand()` will deliver. -/
structure World where
  gameState : GameState
  parentHunt : Hunt
  childHunt : Hunt
  statusLabel : String
  turnLabel : String
  movesBuffer : String
  draws : List Nat

/-- The text `sprintf` puts into `moveMessage`: `who` is `Parent` or `Child`,
`what` is `hit` or `missed`. -/
def moveMessage (who what : String) (hitX hitY : Int) : String :=
  who ++ " " ++ what ++ " at (" ++ toString hitX ++ ", " ++ toString hitY ++ ")\n"

/-- Function `playGame`; the Boolean is the `gboolean` it returns.  The text
iterator taken at the top of the function is the end of `movesBuffer`, so
`gtk_text_buffer_insert` appends.  Redrawing the buttons (`refreshGrid`) is
left out. -/
def playGame (w : World) : Option (World × Bool) :=
  if w.gameState.gameStatus0 = GAME_OVER then some (w, false)
  else if w.gameState.gameStatus1 = PARENT_TURN then
    match parentAttack w.gameState w.parentHunt w.draws with
    | none => none
    | some a =>
        let msg :=
          if a.result = 1 then moveMessage "Parent" "hit" a.hitX a.hitY
          else moveMessage "Parent" "missed" a.hitX a.hitY
        if a.result = 1 ∧ checkGameOver a.gameState.childGrid ≠ 0 then
          some ({ w with
                  gameState := { a.gameState with gameStatus0 := GAME_OVER }
                  parentHunt := a.hunt, draws := a.draws
                  statusLabel := "Parent wins the game!", turnLabel := "Game Over" }, false)
        else
          some ({ w with
                  gameState := { a.gameState with gameStatus1 := CHILD_TURN }
                  parentHunt := a.hunt, draws := a.draws
                  statusLabel := msg, turnLabel := "Current Turn: Parent"
                  movesBuffer := w.movesBuffer ++ msg }, true)
  else if w.gameState.gameStatus1 = CHILD_TURN then
    match childAttack w.gameState w.childHunt w.draws with
    | none => none
    | some a =>
        let msg :=
          if a.result = 1 then moveMessage "Child" "hit" a.hitX a.hitY
          else moveMessage "Child" "missed" a.hitX a.hitY
        if a.result = 1 ∧ checkGameOver a.gameState.parentGrid ≠ 0 then
          some ({ w with
                  gameState := { a.gameState with gameStatus0 := GAME_OVER }
                  childHunt := a.hunt, draws := a.draws
                  statusLabel := "Child wins the game!", turnLabel := "Game Over" }, false)
        else
          some ({ w with
                  gameState := { a.gameState with gameStatus1 := PARENT_TURN }
                  childHunt := a.hunt, draws := a.draws
                  statusLabel := msg, turnLabel := "Current Turn: Child"
                  movesBuffer := w.movesBuffer ++ msg }, true)
  else some (w, true)

/-- Repeated calls of `playGame`, as the timer makes them; the state after
`n` calls (`none` if one of them has no result). -/
def playGameTimes : Nat → World → Option World
  | 0, w => some w
  | n + 1, w =>
      match playGame w with
      | none => none
      | some (w1, _) => playGameTimes n w1

/-! ## Persistence -/

/-- One byte of the save file. -/
abbrev Byte := Fin 256

/-- Object representation of a C `int`: 32 bits, two's complement, least
significant byte first. -/
def intToBytes (v : Int) : List Byte :=
  let u : Nat := (v % 4294967296).toNat
  [⟨u % 256, Nat.mod_lt _ (by decide)⟩, ⟨u / 256 % 256, Nat.mod_lt _ (by decide)⟩,
   ⟨u / 65536 % 256, Nat.mod_lt _ (by decide)⟩, ⟨u / 16777216 % 256, Nat.mod_lt _ (by decide)⟩]

/-- The `int` whose object representation is the four given bytes. -/
def bytesToInt (b0 b1 b2 b3 : Byte) : Int :=
  let u : Nat := b0.val + 256 * b1.val + 65536 * b2.val + 16777216 * b3.val
  if u < 2147483648 then (u : Int) else (u : Int) - 4294967296

/-- The `k`-th `int` of a `GameState` object, in declaration order: the four
arrays row by row (64 each), then `gameStatus[0]` and `gameStatus[1]`. -/
def GameState.word (s : GameState) (k : Nat) : Int :=
  if h0 : k < 64 then s.parentGrid ⟨k / 8, by omega⟩ ⟨k % 8, by omega⟩
  else if h1 : k < 128 then s.childGrid ⟨(k - 64) / 8, by omega⟩ ⟨(k - 64) % 8, by omega⟩
  else if h2 : k < 192 then
    s.parentAttackedCells ⟨(k - 128) / 8, by omega⟩ ⟨(k - 128) % 8, by omega⟩
  else if h3 : k < 256 then
    s.childAttackedCells ⟨(k - 192) / 8, by omega⟩ ⟨(k - 192) % 8, by omega⟩
  else if k = 256 then s.gameStatus0
  else s.gameStatus1

/-- Number of `int`s in a `GameState`: `sizeof(GameState) / sizeof(int)`. -/
def gameStateWords : Nat := 258

/-- The bytes of a `GameState` object, `sizeof(GameState)` = 1032 of them. -/
def objectBytes (s : GameState) : List Byte :=
  (List.range gameStateWords).flatMap fun k => intToBytes (s.word k)

/-- The `int` stored at word offset `k` of a byte image. -/
def intAt (mem : List Byte) (k : Nat) : Int :=
  bytesToInt (mem.getD (4 * k) 0) (mem.getD (4 * k + 1) 0)
    (mem.getD (4 * k + 2) 0) (mem.getD (4 * k + 3) 0)

/-- The `GameState` a byte image of the object denotes. -/
def GameState.ofBytes (mem : List Byte) : GameState where
  parentGrid := fun r c => intAt mem (8 * r.val + c.val)
  childGrid := fun r c => intAt mem (64 + 8 * r.val + c.val)
  parentAttackedCells := fun r c => intAt mem (128 + 8 * r.val + c.val)
  childAttackedCells := fun r c => intAt mem (192 + 8 * r.val + c.val)
  gameStatus0 := intAt mem 256
  gameStatus1 := intAt mem 257

/-- Effect of `fread(ptr, size, 1, fp)` on the `size` bytes at `ptr`: the bytes
the file delivers replace the front of the object, the rest stays. -/
def fread (mem file : List Byte) : List Byte :=
  file.take mem.length ++ mem.drop file.length

/-- Function `saveGameState`.  `file` is the content of `gamestate.bin`
(`none`: there is no such file), `canOpen` says whether `fopen(.., "wb")`
succeeds.  Yields the new file content and status label. -/
def saveGameState (canOpen : Bool) (gameState : GameState) (file : Option (List Byte))
    (statusLabel : String) : Option (List Byte) × String :=
  if canOpen then (some (objectBytes gameState), "Game state saved.")
  else (file, statusLabel)

/-- Function `loadGameState`.  `file` is the content of `gamestate.bin`, `none`
when `fopen(.., "rb")` fails.  Yields the game state, the status label and the
return value. -/
def loadGameState (file : Option (List Byte)) (gameState : GameState) (statusLabel : String) :
    GameState × String × Int :=
  match file with
  | none => (gameState, statusLabel, 0)
  | some bytes =>
      (GameState.ofBytes (fread (objectBytes gameState) bytes), "Game state loaded.", 1)

/-! ## Vocabulary of the properties -/

/-- A value a C `int` can hold. -/
def IsCInt (v : Int) : Prop := -2147483648 ≤ v ∧ v < 2147483648

/-- Every field of the state is a C `int`. -/
def GameState.Representable (s : GameState) : Prop :=
  (∀ r c, IsCInt (s.parentGrid r c)) ∧ (∀ r c, IsCInt (s.childGrid r c)) ∧
  (∀ r c, IsCInt (s.parentAttackedCells r c)) ∧ (∀ r c, IsCInt (s.childAttackedCells r c)) ∧
  IsCInt s.gameStatus0 ∧ IsCInt s.gameStatus1

/-- A straight run of `length` cells starting at `(x, y)`, to the right when
`horizontal`, downwards otherwise. -/
structure Segment where
  x : Int
  y : Int
  length : Nat
  horizontal : Bool

/-- The cells `(x, y)` of a segment. -/
def Segment.cells (s : Segment) : List (Int × Int) :=
  (List.range s.length).map fun (i : Nat) =>
    if s.horizontal then (s.x + (i : Int), s.y) else (s.x, s.y + (i : Int))

/-- Two cells `(x, y)` touch: they differ and are at most one step apart in
each coordinate (the 8 neighbours, diagonals included). -/
def Adjacent8 (p q : Int × Int) : Prop :=
  p ≠ q ∧ (q.1 - 1 ≤ p.1 ∧ p.1 ≤ q.1 + 1) ∧ (q.2 - 1 ≤ p.2 ∧ p.2 ≤ q.2 + 1)

/-- Two segments share no cell and no cell of one touches a cell of the other. -/
def Segment.Apart (s t : Segment) : Prop :=
  ∀ p ∈ s.cells, ∀ q ∈ t.cells, p ≠ q ∧ ¬ Adjacent8 p q

/-- The ship cells of `g` are exactly the cells of the segments `segs`, every
other cell is empty, the segments lie inside the grid and are pairwise apart. -/
def Fleet (g : Grid) (segs : List Segment) : Prop :=
  (∀ s ∈ segs, ∀ p ∈ s.cells, (0 ≤ p.1 ∧ p.1 < 8) ∧ (0 ≤ p.2 ∧ p.2 < 8)) ∧
  segs.Pairwise Segment.Apart ∧
  ∀ r c : Fin 8,
    (g r c = 1 ↔ ∃ s ∈ segs, ((c.val : Int), (r.val : Int)) ∈ s.cells) ∧
    (g r c ≠ 1 → g r c = 0)

/-- The segment a successful attempt of `placeShip` writes. -/
def placedSegment (x y length horizontal : Int) : Segment :=
  ⟨x, y, length.toNat, decide (horizontal ≠ 0)⟩

/-- Draws that place the fleet at the first attempt for every ship: rows 0, 2,
4, 6 from column 0, and the last ship downwards from `(5, 0)`. -/
def sampleFleetDraws : List Nat := [0, 0, 1, 0, 2, 1, 0, 4, 1, 0, 6, 1, 5, 0, 0]

/-- The `GameState` as `main` initialises it: four zeroed arrays,
`GAME_CONTINUE`, `PARENT_TURN`. -/
def initialGameState : GameState where
  parentGrid := initializeGrid
  childGrid := initializeGrid
  parentAttackedCells := initializeGrid
  childAttackedCells := initializeGrid
  gameStatus0 := GAME_CONTINUE
  gameStatus1 := PARENT_TURN

/-- The statics of an attack function before its first hit: `-1`, `-1`. -/
def noHunt : Hunt := ⟨-1, -1⟩

/-- The text `playGame` formats for a parent attack with outcome `a`. -/
def parentMessage (a : AttackOutcome) : String :=
  if a.result = 1 then moveMessage "Parent" "hit" a.hitX a.hitY
  else moveMessage "Parent" "missed" a.hitX a.hitY

/-- The text `playGame` formats for a child attack with outcome `a`. -/
def childMessage (a : AttackOutcome) : String :=
  if a.result = 1 then moveMessage "Child" "hit" a.hitX a.hitY
  else moveMessage "Child" "missed" a.hitX a.hitY

/-- A world around the freshly initialised game state: no hunt pending on either
side, empty labels and move history, and the given draws. -/
def initialWorld (draws : List Nat) : World where
  gameState := initialGameState
  parentHunt := noHunt
  childHunt := noHunt
  statusLabel := ""
  turnLabel := ""
  movesBuffer := ""
  draws := draws

/-- The first of the four neighbours of `(hx, hy)`, in the order left, right,
up, down, that `isValidAttack` accepts on the tracker `ac`; `none` when it
accepts none of them. -/
def firstValidNeighbour (ac : Grid) (hx hy : Int) : Option (Int × Int) :=
  if isValidAttack ac (hx - 1) hy ≠ 0 then some (hx - 1, hy)
  else if isValidAttack ac (hx + 1) hy ≠ 0 then some (hx + 1, hy)
  else if isValidAttack ac hx (hy - 1) ≠ 0 then some (hx, hy - 1)
  else if isValidAttack ac hx (hy + 1) ≠ 0 then some (hx, hy + 1)
  else none

/-- A tracker in which, of the four neighbours of `(3, 3)`, only `(3, 2)` is
unmarked: `(2, 3)`, `(4, 3)` and `(3, 4)` are marked, as is `(3, 3)` itself. -/
def huntSampleTracker : Grid :=
  (((initializeGrid.write 3 3 1).write 3 2 1).write 3 4 1).write 4 3 1

/-- The freshly initialised state with `huntSampleTracker` as the tracker of
both sides. -/
def huntSampleState : GameState :=
  { initialGameState with
    parentAttackedCells := huntSampleTracker
    childAttackedCells := huntSampleTracker }

/-- A world whose phase is `GAME_OVER`: the freshly initialised world with
`gameStatus[0]` set to `GAME_OVER`. -/
def overWorld : World :=
  { initialWorld [3, 4] with
    gameState := { initialGameState with gameStatus0 := GAME_OVER } }

instance (v : Int) : Decidable (IsCInt v) := by
  unfold IsCInt
  infer_instance

/-- A mid-game state with ship, hit, miss and empty cells, marked trackers and
the child to move. -/
def sampleSavedState : GameState where
  parentGrid := (initializeGrid.write 0 0 1).write 0 1 2
  childGrid := (initializeGrid.write 5 5 (-1)).write 2 3 1
  parentAttackedCells := huntSampleTracker
  childAttackedCells := initializeGrid.write 0 1 1
  gameStatus0 := GAME_CONTINUE
  gameStatus1 := CHILD_TURN

/-- A four-byte save file: the object representation of the single `int` 1. -/
def shortFile : List Byte := [1, 0, 0, 0]

/-- The end-to-end scenario: the child's only ship is `(0,0)-(1,0)`, the parent
has one ship cell at `(7,7)`, nothing has been attacked, the parent moves
first.  The draws make the parent attack `(0,0)` and the child `(5,5)`; the
parent's second attack needs no draw (hunt: left of `(0,0)` is outside, right
is `(1,0)`). -/
def scenarioWorld : World where
  gameState :=
    { initialGameState with
      parentGrid := initializeGrid.write 7 7 1
      childGrid := (initializeGrid.write 0 0 1).write 0 1 1 }
  parentHunt := noHunt
  childHunt := noHunt
  statusLabel := ""
  turnLabel := ""
  movesBuffer := ""
  draws := [0, 0, 5, 5]

/-- Function `onPlaceShips` on the engine state: the four arrays are zeroed, both
fleets are placed (parent first), the status becomes `GAME_CONTINUE`,
`PARENT_TURN`, the labels are set and the move history is cleared.  The statics
of the attack functions are not touched.  `none` when a placement does not
return.  The flags `shipsPlaced`, `gameStarted` and the redraw are left out. -/
def onPlaceShips (w : World) : Option World :=
  match placeAllShips initializeGrid w.draws with
  | none => none
  | some (parentGrid, draws1) =>
      match placeAllShips initializeGrid draws1 with
      | none => none
      | some (childGrid, draws2) =>
          some { w with
                 gameState :=
                   { parentGrid := parentGrid
                     childGrid := childGrid
                     parentAttackedCells := initializeGrid
                     childAttackedCells := initializeGrid
                     gameStatus0 := GAME_CONTINUE
                     gameStatus1 := PARENT_TURN }
                 statusLabel := "Ships have been placed."
                 turnLabel := "Current Turn: None"
                 movesBuffer := ""
                 draws := draws2 }

/-- A fresh setup: both trackers are empty and both grids hold only empty (`0`)
and ship (`1`) cells. -/
def FreshSetup (gs : GameState) : Prop :=
  (∀ r c, gs.parentAttackedCells r c = 0) ∧ (∀ r c, gs.childAttackedCells r c = 0) ∧
  (∀ r c, gs.parentGrid r c = 0 ∨ gs.parentGrid r c = 1) ∧
  (∀ r c, gs.childGrid r c = 0 ∨ gs.childGrid r c = 1)

/-- Every cell an attacker has not marked yet is still empty or ship in the
defender's grid. -/
def UnmarkedIntact (gs : GameState) : Prop :=
  (∀ r c, gs.parentAttackedCells r c = 0 → gs.childGrid r c = 0 ∨ gs.childGrid r c = 1) ∧
  (∀ r c, gs.childAttackedCells r c = 0 → gs.parentGrid r c = 0 ∨ gs.parentGrid r c = 1)

/-- Every ship cell of a defender is unmarked in the attacker's tracker, and
while the phase is `GAME_CONTINUE` each grid still has a ship cell; the phase
is `GAME_CONTINUE` or `GAME_OVER`. -/
def ShipsAfloat (gs : GameState) : Prop :=
  (∀ r c, gs.childGrid r c = 1 → gs.parentAttackedCells r c = 0) ∧
  (∀ r c, gs.parentGrid r c = 1 → gs.childAttackedCells r c = 0) ∧
  (gs.gameStatus0 = GAME_CONTINUE ∨ gs.gameStatus0 = GAME_OVER) ∧
  (gs.gameStatus0 = GAME_CONTINUE →
    (∃ r c, gs.childGrid r c = 1) ∧ (∃ r c, gs.parentGrid r c = 1))

/-- A hunt is pending: the test `lastHitX != -1 && lastHitY != -1` of the attack
functions. -/
def Hunt.Pending (h : Hunt) : Prop := h.lastHitX ≠ -1 ∧ h.lastHitY ≠ -1

/-- Draws for `onPlaceShips` (two fleets, each placed as by `sampleFleetDraws`)
followed by the draws of two random attacks, `(0, 0)` and `(7, 7)`. -/
def sampleMatchDraws : List Nat := sampleFleetDraws ++ sampleFleetDraws ++ [0, 0, 7, 7]

/-! ## Basic facts about grids -/

theorem inBounds_iff (x y : Int) :
    inBounds x y = true ↔ (0 ≤ x ∧ x < 8) ∧ (0 ≤ y ∧ y < 8) := by
  simp [inBounds, GRID_SIZE, and_assoc]

theorem read_coe (g : Grid) (r c : Fin 8) : g.read (r.val : Int) (c.val : Int) = g r c := by
  have hr := r.isLt
  have hc := c.isLt
  unfold Grid.read
  rw [dif_pos (by omega)]
  simp

theorem read_eq_of_bounds (g : Grid) (y x : Int) (h : (0 ≤ y ∧ y < 8) ∧ (0 ≤ x ∧ x < 8)) :
    g.read y x = g ⟨y.toNat, by omega⟩ ⟨x.toNat, by omega⟩ := by
  unfold Grid.read
  rw [dif_pos h]

theorem write_apply (g : Grid) (y x v : Int) (r c : Fin 8) :
    g.write y x v r c = if (r.val : Int) = y ∧ (c.val : Int) = x then v else g r c := rfl

theorem read_write (g : Grid) (y x v y1 x1 : Int) :
    (g.write y x v).read y1 x1 =
      if ((0 ≤ y1 ∧ y1 < 8) ∧ (0 ≤ x1 ∧ x1 < 8)) ∧ y1 = y ∧ x1 = x then v else g.read y1 x1 := by
  unfold Grid.read
  by_cases h : (0 ≤ y1 ∧ y1 < 8) ∧ (0 ≤ x1 ∧ x1 < 8)
  · rw [dif_pos h, dif_pos h, write_apply]
    have e1 : ((y1.toNat : Nat) : Int) = y1 := Int.toNat_of_nonneg h.1.1
    have e2 : ((x1.toNat : Nat) : Int) = x1 := Int.toNat_of_nonneg h.2.1
    simp only [e1, e2, h, true_and, and_self]
  · rw [dif_neg h, dif_neg h]
    simp [h]

/-! ## Placement validity -/

theorem surroundingsClear_iff (g : Grid) (px py : Int) :
    surroundingsClear g px py = true ↔
      ∀ r c : Fin 8, (px - 1 ≤ (c.val : Int) ∧ (c.val : Int) ≤ px + 1) →
        (py - 1 ≤ (r.val : Int) ∧ (r.val : Int) ≤ py + 1) →
        ¬ ((c.val : Int) = px ∧ (r.val : Int) = py) → g r c = 0 := by
  unfold surroundingsClear
  simp only [List.all_eq_true, Bool.not_eq_true', Bool.and_eq_false_imp, inBounds_iff,
    bne_iff_ne, ne_eq, Bool.not_eq_true', Bool.and_eq_true, beq_iff_eq, Bool.not_eq_false',
    Bool.not_eq_true, Bool.and_eq_false_imp, Bool.not_eq_eq_eq_not, Bool.not_true,
    Bool.not_false, bne_eq_false_iff_eq]
  constructor
  · intro h r c hc hr hne
    have hrlt := r.isLt
    have hclt := c.isLt
    have hdx : (c.val : Int) - px ∈ ([-1, 0, 1] : List Int) := by
      simp only [List.mem_cons, List.mem_singleton, List.not_mem_nil, or_false]
      omega
    have hdy : (r.val : Int) - py ∈ ([-1, 0, 1] : List Int) := by
      simp only [List.mem_cons, List.mem_singleton, List.not_mem_nil, or_false]
      omega
    have key := h _ hdx _ hdy
    have ex : px + ((c.val : Int) - px) = (c.val : Int) := by omega
    have ey : py + ((r.val : Int) - py) = (r.val : Int) := by omega
    rw [ex, ey, read_coe] at key
    by_contra hg
    have := key (by omega) hg
    exact hne this
  · intro h dx hdx dy hdy hb hg
    simp only [List.mem_cons, List.mem_singleton, List.not_mem_nil, or_false] at hdx hdy
    by_contra hne
    have e := h ⟨(py + dy).toNat, by omega⟩ ⟨(px + dx).toNat, by omega⟩
      (by simp only []; omega) (by simp only []; omega) (by simp only []; omega)
    rw [read_eq_of_bounds g _ _ (by omega)] at hg
    exact hg e

theorem placementStepOk_iff (g : Grid) (x y horizontal : Int) (i : Nat) :
    placementStepOk g x y horizontal i = true ↔
      ((0 ≤ placeXOf x horizontal i ∧ placeXOf x horizontal i < 8) ∧
        (0 ≤ placeYOf y horizontal i ∧ placeYOf y horizontal i < 8)) ∧
      g.read (placeYOf y horizontal i) (placeXOf x horizontal i) = 0 ∧
      ∀ r c : Fin 8,
        (placeXOf x horizontal i - 1 ≤ (c.val : Int) ∧
          (c.val : Int) ≤ placeXOf x horizontal i + 1) →
        (placeYOf y horizontal i - 1 ≤ (r.val : Int) ∧
          (r.val : Int) ≤ placeYOf y horizontal i + 1) →
        ¬ ((c.val : Int) = placeXOf x horizontal i ∧ (r.val : Int) = placeYOf y horizontal i) →
        g r c = 0 := by
  unfold placementStepOk
  simp only [Bool.and_eq_true, surroundingsClear_iff, Bool.not_eq_true', Bool.or_eq_false_iff,
    decide_eq_false_iff_not, GRID_SIZE, bne_eq_false_iff_eq, ge_iff_le, not_le, not_lt]
  constructor
  · rintro ⟨⟨⟨⟨⟨h1, h2⟩, h3⟩, h4⟩, h5⟩, h6⟩
    exact ⟨⟨⟨h1, h2⟩, ⟨h3, h4⟩⟩, h5, h6⟩
  · rintro ⟨⟨⟨h1, h2⟩, ⟨h3, h4⟩⟩, h5, h6⟩
    exact ⟨⟨⟨⟨⟨h1, h2⟩, h3⟩, h4⟩, h5⟩, h6⟩

theorem isValidPlacement_ne_zero_iff (g : Grid) (x y length horizontal : Int) :
    isValidPlacement g x y length horizontal ≠ 0 ↔
      ∀ i : Nat, i < length.toNat → placementStepOk g x y horizontal i = true := by
  unfold isValidPlacement
  split
  · rename_i h
    simp only [List.all_eq_true, List.mem_range] at h
    simp only [ne_eq, one_ne_zero, not_false_eq_true, true_iff]
    exact h
  · rename_i h
    simp only [List.all_eq_true, List.mem_range] at h
    simp only [ne_eq, not_true_eq_false, false_iff]
    exact h

theorem isValidPlacement_zero_or_one (g : Grid) (x y length horizontal : Int) :
    isValidPlacement g x y length horizontal = 0 ∨
      isValidPlacement g x y length horizontal = 1 := by
  unfold isValidPlacement
  split
  · exact Or.inr rfl
  · exact Or.inl rfl

/-- C10: on a grid that holds only empty (`0`) and ship (`1`) cells,
`isValidPlacement` returns `1` exactly when each of the `L` cells of the
placement is inside the 8x8 grid, is empty, and no in-bounds cell touching it
(diagonals included) holds a ship; otherwise it returns `0`.  The function is
a pure query of the grid. -/
theorem isValidPlacement_spec (grid : Grid) (hgrid : ∀ r c, grid r c = 0 ∨ grid r c = 1)
    (x y L horizontal : Int) :
    (isValidPlacement grid x y L horizontal = 1 ∨ isValidPlacement grid x y L horizontal = 0) ∧
    (isValidPlacement grid x y L horizontal = 1 ↔
      ∀ i : Int, 0 ≤ i → i < L →
        ((0 ≤ (if horizontal ≠ 0 then x + i else x) ∧ (if horizontal ≠ 0 then x + i else x) < 8) ∧
          (0 ≤ (if horizontal ≠ 0 then y else y + i) ∧
            (if horizontal ≠ 0 then y else y + i) < 8)) ∧
        grid.read (if horizontal ≠ 0 then y else y + i) (if horizontal ≠ 0 then x + i else x) = 0 ∧
        ∀ r c : Fin 8,
          Adjacent8 ((c.val : Int), (r.val : Int))
            ((if horizontal ≠ 0 then x + i else x), (if horizontal ≠ 0 then y else y + i)) →
          grid r c ≠ 1) := by
  refine ⟨(isValidPlacement_zero_or_one grid x y L horizontal).symm, ?_⟩
  have h01 : isValidPlacement grid x y L horizontal = 1 ↔
      isValidPlacement grid x y L horizontal ≠ 0 := by
    rcases isValidPlacement_zero_or_one grid x y L horizontal with h | h <;> simp [h]
  rw [h01, isValidPlacement_ne_zero_iff]
  have hx : ∀ i : Nat, placeXOf x horizontal i = if horizontal ≠ 0 then x + (i : Int) else x := by
    intro i
    unfold placeXOf
    split <;> simp
  have hy : ∀ i : Nat, placeYOf y horizontal i = if horizontal ≠ 0 then y else y + (i : Int) := by
    intro i
    unfold placeYOf
    split <;> simp
  constructor
  · intro h i hi0 hiL
    have hi : i.toNat < L.toNat := by omega
    have hcast : ((i.toNat : Nat) : Int) = i := Int.toNat_of_nonneg hi0
    have key := (placementStepOk_iff grid x y horizontal i.toNat).1 (h i.toNat hi)
    rw [hx, hy, hcast] at key
    obtain ⟨hb, he, hn⟩ := key
    refine ⟨hb, he, ?_⟩
    intro r c hadj hship
    obtain ⟨hne, hcx, hcy⟩ := hadj
    have := hn r c hcx hcy (by
      rintro ⟨e1, e2⟩
      exact hne (by rw [e1, e2]))
    omega
  · intro h i hi
    have key := h (i : Int) (by omega) (by omega)
    rw [placementStepOk_iff, hx, hy]
    obtain ⟨hb, he, hn⟩ := key
    refine ⟨hb, he, ?_⟩
    intro r c hcx hcy hne
    have h1 := hn r c ⟨by
      intro e
      exact hne ⟨congrArg Prod.fst e, congrArg Prod.snd e⟩, hcx, hcy⟩
    rcases hgrid r c with h0 | h0
    · exact h0
    · exact absurd h0 h1

/-- Instance of `isValidPlacement_spec` on the empty grid, for a horizontal
ship of length 4 at the origin. -/
theorem isValidPlacement_spec_witness :
    (∀ r c, initializeGrid r c = 0 ∨ initializeGrid r c = 1) ∧
    isValidPlacement initializeGrid 0 0 4 1 = 1 :=
  ⟨fun _ _ => Or.inl rfl,
    ((isValidPlacement_spec initializeGrid (fun _ _ => Or.inl rfl) 0 0 4 1).2).2 (by
      intro i h0 h4
      have hi : i = 0 ∨ i = 1 ∨ i = 2 ∨ i = 3 := by omega
      refine ⟨by rcases hi with h | h | h | h <;> subst h <;> decide, ?_, ?_⟩
      · rcases hi with h | h | h | h <;> subst h <;> decide
      · intro r c _
        simp [initializeGrid])⟩

/-! ## Win detection -/

/-- C8: `checkGameOver` returns `1` exactly when no cell of the grid is a ship
cell (`1`) and `0` exactly when some cell is; so a grid without ship cells that
has a hit cell (`2`) yields `1`, and a grid with a ship cell yields `0` whatever
the other cells hold. -/
theorem checkGameOver_spec (grid : Grid) :
    (checkGameOver grid = 1 ↔ ∀ r c, grid r c ≠ 1) ∧
    (checkGameOver grid = 0 ↔ ∃ r c, grid r c = 1) ∧
    ((∀ r c, grid r c ≠ 1) → (∃ r c, grid r c = 2) → checkGameOver grid = 1) ∧
    (∀ r c, grid r c = 1 → checkGameOver grid = 0) := by
  have h0 : checkGameOver grid = 0 ↔ ∃ r c, grid r c = 1 := by
    unfold checkGameOver
    split
    · rename_i h
      simp only [List.any_eq_true, List.mem_finRange, true_and, beq_iff_eq] at h
      simp only [true_iff]
      exact h
    · rename_i h
      simp only [List.any_eq_true, List.mem_finRange, true_and, beq_iff_eq] at h
      simp only [one_ne_zero, false_iff]
      exact h
  have h1 : checkGameOver grid = 1 ↔ ∀ r c, grid r c ≠ 1 := by
    unfold checkGameOver
    split
    · rename_i h
      simp only [List.any_eq_true, List.mem_finRange, true_and, beq_iff_eq] at h
      simp only [zero_ne_one, false_iff, not_forall, ne_eq, not_not]
      exact h
    · rename_i h
      simp only [List.any_eq_true, List.mem_finRange, true_and, beq_iff_eq, not_exists] at h
      simp only [true_iff]
      exact h
  exact ⟨h1, h0, fun h _ => h1.2 h, fun r c h => h0.2 ⟨r, c, h⟩⟩

/-! ## Fleet placement -/

theorem mem_placedSegment_cells (x y length horizontal : Int) (p : Int × Int) :
    p ∈ (placedSegment x y length horizontal).cells ↔
      ∃ i : Nat, i < length.toNat ∧ p = (placeXOf x horizontal i, placeYOf y horizontal i) := by
  unfold Segment.cells placedSegment placeXOf placeYOf
  simp only [List.mem_map, List.mem_range]
  constructor
  · rintro ⟨i, hi, rfl⟩
    refine ⟨i, hi, ?_⟩
    by_cases hh : horizontal = 0 <;> simp [hh]
  · rintro ⟨i, hi, rfl⟩
    refine ⟨i, hi, ?_⟩
    by_cases hh : horizontal = 0 <;> simp [hh]

theorem markShip_apply (g : Grid) (x y length horizontal : Int) (r c : Fin 8) :
    markShip g x y length horizontal r c =
      if ∃ i : Nat, i < length.toNat ∧
          (r.val : Int) = placeYOf y horizontal i ∧ (c.val : Int) = placeXOf x horizontal i
      then 1 else g r c := by
  unfold markShip
  generalize length.toNat = n
  induction n with
  | zero => simp
  | succ n ih =>
    rw [List.range_succ, List.foldl_append, List.foldl_cons, List.foldl_nil, write_apply, ih]
    by_cases hlast : (r.val : Int) = placeYOf y horizontal n ∧
        (c.val : Int) = placeXOf x horizontal n
    · rw [if_pos hlast, if_pos ⟨n, Nat.lt_succ_self n, hlast⟩]
    · rw [if_neg hlast]
      by_cases hold : ∃ i : Nat, i < n ∧
          (r.val : Int) = placeYOf y horizontal i ∧ (c.val : Int) = placeXOf x horizontal i
      · obtain ⟨i, hi, he⟩ := hold
        rw [if_pos ⟨i, hi, he⟩, if_pos ⟨i, Nat.lt_succ_of_lt hi, he⟩]
      · rw [if_neg hold, if_neg]
        rintro ⟨i, hi, he⟩
        rcases Nat.lt_succ_iff_lt_or_eq.1 hi with h | h
        · exact hold ⟨i, h, he⟩
        · subst h
          exact hlast he

theorem fleet_markShip (g : Grid) (segs : List Segment) (x y length horizontal : Int)
    (hf : Fleet g segs) (hv : isValidPlacement g x y length horizontal ≠ 0) :
    Fleet (markShip g x y length horizontal) (segs ++ [placedSegment x y length horizontal]) := by
  obtain ⟨hbounds, hpair, hcells⟩ := hf
  rw [isValidPlacement_ne_zero_iff] at hv
  have hstep := fun i hi => (placementStepOk_iff g x y horizontal i).1 (hv i hi)
  refine ⟨?_, ?_, ?_⟩
  · intro s hs p hp
    rcases List.mem_append.1 hs with h | h
    · exact hbounds s h p hp
    · rw [List.mem_singleton] at h
      subst h
      obtain ⟨i, hi, rfl⟩ := (mem_placedSegment_cells x y length horizontal p).1 hp
      exact (hstep i hi).1
  · rw [List.pairwise_append]
    refine ⟨hpair, List.pairwise_singleton _ _, ?_⟩
    intro s hs t ht p hp q hq
    rw [List.mem_singleton] at ht
    subst ht
    obtain ⟨i, hi, rfl⟩ := (mem_placedSegment_cells x y length horizontal q).1 hq
    obtain ⟨hb, he, hn⟩ := hstep i hi
    have hpb := hbounds s hs p hp
    have hp1 : g ⟨p.2.toNat, by omega⟩ ⟨p.1.toNat, by omega⟩ = 1 := by
      refine ((hcells _ _).1).2 ⟨s, hs, ?_⟩
      have e1 : ((p.1.toNat : Nat) : Int) = p.1 := Int.toNat_of_nonneg hpb.1.1
      have e2 : ((p.2.toNat : Nat) : Int) = p.2 := Int.toNat_of_nonneg hpb.2.1
      simp only [e1, e2]
      exact hp
    have e1 : ((p.1.toNat : Nat) : Int) = p.1 := Int.toNat_of_nonneg hpb.1.1
    have e2 : ((p.2.toNat : Nat) : Int) = p.2 := Int.toNat_of_nonneg hpb.2.1
    constructor
    · intro hpq
      rw [read_eq_of_bounds g _ _ ⟨hb.2, hb.1⟩] at he
      have hx : p.1 = placeXOf x horizontal i := congrArg Prod.fst hpq
      have hy : p.2 = placeYOf y horizontal i := congrArg Prod.snd hpq
      simp only [← hx, ← hy] at he
      rw [he] at hp1
      exact zero_ne_one hp1
    · rintro ⟨hne, hcx, hcy⟩
      have h0 := hn ⟨p.2.toNat, by omega⟩ ⟨p.1.toNat, by omega⟩
        (by simp only [e1]; exact hcx) (by simp only [e2]; exact hcy)
        (by
          simp only [e1, e2]
          rintro ⟨h1, h2⟩
          exact hne (Prod.ext h1 h2))
      rw [h0] at hp1
      exact zero_ne_one hp1
  · intro r c
    rw [markShip_apply]
    by_cases hnew : ∃ i : Nat, i < length.toNat ∧
        (r.val : Int) = placeYOf y horizontal i ∧ (c.val : Int) = placeXOf x horizontal i
    · rw [if_pos hnew]
      refine ⟨⟨fun _ => ?_, fun _ => rfl⟩, fun h => absurd rfl h⟩
      obtain ⟨i, hi, hr, hc⟩ := hnew
      refine ⟨_, List.mem_append_right _ (List.mem_singleton_self _), ?_⟩
      exact (mem_placedSegment_cells x y length horizontal _).2 ⟨i, hi, by rw [hr, hc]⟩
    · rw [if_neg hnew]
      refine ⟨⟨fun h => ?_, fun h => ?_⟩, (hcells r c).2⟩
      · obtain ⟨s, hs, hp⟩ := ((hcells r c).1).1 h
        exact ⟨s, List.mem_append_left _ hs, hp⟩
      · obtain ⟨s, hs, hp⟩ := h
        rcases List.mem_append.1 hs with h | h
        · exact ((hcells r c).1).2 ⟨s, h, hp⟩
        · rw [List.mem_singleton] at h
          subst h
          obtain ⟨i, hi, he⟩ := (mem_placedSegment_cells x y length horizontal _).1 hp
          exact absurd ⟨i, hi, congrArg Prod.snd he, congrArg Prod.fst he⟩ hnew

theorem placeShipLoop_fleet (length : Int) (segs : List Segment) :
    ∀ (k : Nat) (g : Grid) (draws : List Nat) (g1 : Grid) (rest : List Nat),
      Fleet g segs → placeShipLoop length k g draws = some (g1, rest) →
      ∃ seg : Segment, seg.length = length.toNat ∧ Fleet g1 (segs ++ [seg]) := by
  intro k
  induction k with
  | zero =>
    intro g draws g1 rest _ h
    simp [placeShipLoop] at h
  | succ k ih =>
    intro g draws g1 rest hf h
    match draws, h with
    | rx :: ry :: rh :: more, h =>
      simp only [placeShipLoop] at h
      split at h
      · rename_i hv
        simp only [Option.some.injEq, Prod.mk.injEq] at h
        obtain ⟨hg, _⟩ := h
        subst hg
        exact ⟨_, rfl, fleet_markShip g segs _ _ length _ hf hv⟩
      · exact ih g more g1 rest hf h
    | [], h => simp [placeShipLoop] at h
    | [_], h => simp [placeShipLoop] at h
    | [_, _], h => simp [placeShipLoop] at h

theorem placeShipsFrom_fleet :
    ∀ (todo : List Ship) (segs : List Segment) (g : Grid) (draws : List Nat) (g1 : Grid)
      (rest : List Nat),
      Fleet g segs → placeShipsFrom todo g draws = some (g1, rest) →
      ∃ segs1 : List Segment,
        segs1.map Segment.length = segs.map Segment.length ++ todo.map (fun s => s.length.toNat) ∧
        Fleet g1 segs1 := by
  intro todo
  induction todo with
  | nil =>
    intro segs g draws g1 rest hf h
    simp only [placeShipsFrom, Option.some.injEq, Prod.mk.injEq] at h
    obtain ⟨hg, _⟩ := h
    subst hg
    exact ⟨segs, by simp, hf⟩
  | cons s more ih =>
    intro segs g draws g1 rest hf h
    simp only [placeShipsFrom] at h
    split at h
    · exact absurd h (by simp)
    · rename_i g2 draws2 hplace
      obtain ⟨seg, hlen, hf2⟩ := placeShipLoop_fleet s.length segs 1000 g draws g2 draws2 hf hplace
      obtain ⟨segs1, hmap, hf1⟩ := ih (segs ++ [seg]) g2 draws2 g1 rest hf2 h
      refine ⟨segs1, ?_, hf1⟩
      rw [hmap]
      simp [hlen]

theorem fleet_initializeGrid : Fleet initializeGrid [] := by
  refine ⟨by simp, List.Pairwise.nil, ?_⟩
  intro r c
  simp [initializeGrid]

/-- C1: whenever `placeAllShips` returns on the all-empty grid, there are five
segments of lengths 4, 3, 3, 2, 2 (in the order of the `ships` table), each a
straight run of cells inside the 8x8 grid, no two of them sharing a cell or
having cells that touch (diagonals included), such that the ship cells (`1`)
of the resulting grid are exactly the cells of these segments and every other
cell is still empty (`0`). -/
theorem placeAllShips_fleet (draws : List Nat) (res : Grid × List Nat)
    (h : placeAllShips initializeGrid draws = some res) :
    ∃ segs : List Segment,
      segs.map Segment.length = [4, 3, 3, 2, 2] ∧
      (∀ s ∈ segs, ∀ p ∈ s.cells, (0 ≤ p.1 ∧ p.1 < 8) ∧ (0 ≤ p.2 ∧ p.2 < 8)) ∧
      segs.Pairwise (fun s t => ∀ p ∈ s.cells, ∀ q ∈ t.cells, p ≠ q ∧ ¬ Adjacent8 p q) ∧
      ∀ r c : Fin 8,
        (res.1 r c = 1 ↔ ∃ s ∈ segs, ((c.val : Int), (r.val : Int)) ∈ s.cells) ∧
        (res.1 r c ≠ 1 → res.1 r c = 0) := by
  obtain ⟨g1, rest⟩ := res
  obtain ⟨segs, hmap, hf⟩ :=
    placeShipsFrom_fleet ships [] initializeGrid draws g1 rest fleet_initializeGrid h
  exact ⟨segs, by simpa [ships] using hmap, hf⟩

/-- The fleet property at the draws `sampleFleetDraws`, on which `placeAllShips`
returns. -/
theorem placeAllShips_fleet_witness :
    ∃ res : Grid × List Nat,
      placeAllShips initializeGrid sampleFleetDraws = some res ∧
      ∃ segs : List Segment,
        segs.map Segment.length = [4, 3, 3, 2, 2] ∧
        (∀ s ∈ segs, ∀ p ∈ s.cells, (0 ≤ p.1 ∧ p.1 < 8) ∧ (0 ≤ p.2 ∧ p.2 < 8)) ∧
        segs.Pairwise (fun s t => ∀ p ∈ s.cells, ∀ q ∈ t.cells, p ≠ q ∧ ¬ Adjacent8 p q) ∧
        ∀ r c : Fin 8,
          (res.1 r c = 1 ↔ ∃ s ∈ segs, ((c.val : Int), (r.val : Int)) ∈ s.cells) ∧
          (res.1 r c ≠ 1 → res.1 r c = 0) := by
  have hs : (placeAllShips initializeGrid sampleFleetDraws).isSome = true := by decide
  obtain ⟨res, hres⟩ := Option.isSome_iff_exists.1 hs
  exact ⟨res, hres, placeAllShips_fleet sampleFleetDraws res hres⟩

/-! ## Target selection and attacks -/

theorem isValidAttack_ne_zero_iff (ac : Grid) (x y : Int) :
    isValidAttack ac x y ≠ 0 ↔ ((0 ≤ x ∧ x < 8) ∧ (0 ≤ y ∧ y < 8)) ∧ ac.read y x = 0 := by
  unfold isValidAttack
  split
  · rename_i h
    simp only [Bool.and_eq_true, inBounds_iff, beq_iff_eq] at h
    simp only [ne_eq, one_ne_zero, not_false_eq_true, true_iff]
    exact h
  · rename_i h
    simp only [Bool.and_eq_true, inBounds_iff, beq_iff_eq] at h
    simp only [ne_eq, not_true_eq_false, false_iff]
    exact h

theorem huntLoop_valid (ac : Grid) (hx hy : Int) :
    ∀ (ds : List (Int × Int)) (p : Int × Int),
      huntLoop ac hx hy ds = some p → isValidAttack ac p.1 p.2 ≠ 0 := by
  intro ds
  induction ds with
  | nil =>
    intro p h
    simp [huntLoop] at h
  | cons d more ih =>
    intro p h
    simp only [huntLoop] at h
    split at h
    · rename_i hv
      simp only [Option.some.injEq] at h
      subst h
      exact hv
    · exact ih p h

theorem randomLoop_valid (ac : Grid) :
    ∀ (draws : List Nat) (x y : Int) (rest : List Nat),
      randomLoop ac draws = some (x, y, rest) → isValidAttack ac x y ≠ 0
  | [], x, y, rest, h => by simp [randomLoop] at h
  | [_], x, y, rest, h => by simp [randomLoop] at h
  | rx :: ry :: more, x, y, rest, h => by
    simp only [randomLoop] at h
    split at h
    · rename_i hv
      simp only [Option.some.injEq, Prod.mk.injEq] at h
      obtain ⟨h1, h2, _⟩ := h
      subst h1 h2
      exact hv
    · exact randomLoop_valid ac more x y rest h

theorem selectTarget_valid (ac : Grid) (hunt : Hunt) (draws : List Nat) (t : Target)
    (h : selectTarget ac hunt draws = some t) : isValidAttack ac t.x t.y ≠ 0 := by
  unfold selectTarget at h
  split at h
  · split at h
    · rename_i x y hh
      simp only [Option.some.injEq] at h
      subst h
      exact huntLoop_valid ac _ _ _ (x, y) hh
    · split at h
      · rename_i x y rest hr
        simp only [Option.some.injEq] at h
        subst h
        exact randomLoop_valid ac _ x y rest hr
      · exact absurd h (by simp)
  · split at h
    · rename_i x y rest hr
      simp only [Option.some.injEq] at h
      subst h
      exact randomLoop_valid ac _ x y rest hr
    · exact absurd h (by simp)

theorem parentAttack_inv (gs : GameState) (hunt : Hunt) (draws : List Nat) (a : AttackOutcome)
    (h : parentAttack gs hunt draws = some a) :
    ∃ t : Target, selectTarget gs.parentAttackedCells hunt draws = some t ∧
      a.hitX = t.x ∧ a.hitY = t.y ∧ a.draws = t.draws ∧
      a.gameState.parentAttackedCells = gs.parentAttackedCells.write t.y t.x 1 ∧
      a.gameState.childAttackedCells = gs.childAttackedCells ∧
      a.gameState.parentGrid = gs.parentGrid ∧
      a.gameState.gameStatus0 = gs.gameStatus0 ∧ a.gameState.gameStatus1 = gs.gameStatus1 ∧
      ((gs.childGrid.read t.y t.x = 1 ∧ a.result = 1 ∧ a.hunt = ⟨t.x, t.y⟩ ∧
          a.gameState.childGrid = gs.childGrid.write t.y t.x 2) ∨
        (gs.childGrid.read t.y t.x ≠ 1 ∧ a.result = 0 ∧ a.hunt = t.hunt ∧
          a.gameState.childGrid = gs.childGrid.write t.y t.x (-1))) := by
  unfold parentAttack at h
  split at h
  · exact absurd h (by simp)
  · rename_i t ht
    refine ⟨t, ht, ?_⟩
    simp only at h
    split at h
    · rename_i hhit
      simp only [Option.some.injEq] at h
      subst h
      exact ⟨rfl, rfl, rfl, rfl, rfl, rfl, rfl, rfl, Or.inl ⟨hhit, rfl, rfl, rfl⟩⟩
    · rename_i hmiss
      simp only [Option.some.injEq] at h
      subst h
      exact ⟨rfl, rfl, rfl, rfl, rfl, rfl, rfl, rfl, Or.inr ⟨hmiss, rfl, rfl, rfl⟩⟩

theorem childAttack_inv (gs : GameState) (hunt : Hunt) (draws : List Nat) (a : AttackOutcome)
    (h : childAttack gs hunt draws = some a) :
    ∃ t : Target, selectTarget gs.childAttackedCells hunt draws = some t ∧
      a.hitX = t.x ∧ a.hitY = t.y ∧ a.draws = t.draws ∧
      a.gameState.childAttackedCells = gs.childAttackedCells.write t.y t.x 1 ∧
      a.gameState.parentAttackedCells = gs.parentAttackedCells ∧
      a.gameState.childGrid = gs.childGrid ∧
      a.gameState.gameStatus0 = gs.gameStatus0 ∧ a.gameState.gameStatus1 = gs.gameStatus1 ∧
      ((gs.parentGrid.read t.y t.x = 1 ∧ a.result = 1 ∧ a.hunt = ⟨t.x, t.y⟩ ∧
          a.gameState.parentGrid = gs.parentGrid.write t.y t.x 2) ∨
        (gs.parentGrid.read t.y t.x ≠ 1 ∧ a.result = 0 ∧ a.hunt = t.hunt ∧
          a.gameState.parentGrid = gs.parentGrid.write t.y t.x (-1))) := by
  unfold childAttack at h
  split at h
  · exact absurd h (by simp)
  · rename_i t ht
    refine ⟨t, ht, ?_⟩
    simp only at h
    split at h
    · rename_i hhit
      simp only [Option.some.injEq] at h
      subst h
      exact ⟨rfl, rfl, rfl, rfl, rfl, rfl, rfl, rfl, Or.inl ⟨hhit, rfl, rfl, rfl⟩⟩
    · rename_i hmiss
      simp only [Option.some.injEq] at h
      subst h
      exact ⟨rfl, rfl, rfl, rfl, rfl, rfl, rfl, rfl, Or.inr ⟨hmiss, rfl, rfl, rfl⟩⟩

/-- The tracker update of an attack, cell by cell: the target is a cell of the
grid that was `0` in `ac`, and writing `1` there changes that cell only. -/
theorem tracker_update (ac : Grid) (x y : Int) (hv : isValidAttack ac x y ≠ 0) :
    ∃ r0 c0 : Fin 8, (c0.val : Int) = x ∧ (r0.val : Int) = y ∧ ac r0 c0 = 0 ∧
      (∀ r c : Fin 8, ac.write y x 1 r c = if r = r0 ∧ c = c0 then 1 else ac r c) ∧
      (∀ r c : Fin 8, ac r c ≠ 0 → ac.write y x 1 r c = ac r c) := by
  obtain ⟨hb, h0⟩ := (isValidAttack_ne_zero_iff ac x y).1 hv
  have ex : ((x.toNat : Nat) : Int) = x := Int.toNat_of_nonneg hb.1.1
  have ey : ((y.toNat : Nat) : Int) = y := Int.toNat_of_nonneg hb.2.1
  rw [read_eq_of_bounds ac y x ⟨hb.2, hb.1⟩] at h0
  have hupd : ∀ r c : Fin 8, ac.write y x 1 r c =
      if r = ⟨y.toNat, by omega⟩ ∧ c = ⟨x.toNat, by omega⟩ then 1 else ac r c := by
    intro r c
    rw [write_apply]
    have hiff : ((r.val : Int) = y ∧ (c.val : Int) = x) ↔
        (r = ⟨y.toNat, by omega⟩ ∧ c = ⟨x.toNat, by omega⟩) := by
      simp only [Fin.ext_iff]
      omega
    simp only [hiff]
  refine ⟨⟨y.toNat, by omega⟩, ⟨x.toNat, by omega⟩, ex, ey, h0, hupd, ?_⟩
  intro r c hne
  rw [hupd]
  by_cases hrc : r = ⟨y.toNat, by omega⟩ ∧ c = ⟨x.toNat, by omega⟩
  · obtain ⟨h1, h2⟩ := hrc
    subst h1 h2
    exact absurd h0 hne
  · rw [if_neg hrc]

/-- C2: whenever `parentAttack` (resp. `childAttack`) returns, the reported
target `(hitX, hitY)` is a cell of the 8x8 grid that was unmarked (`0`) in the
attacker's own tracker before the call; afterwards that tracker is the old one
with exactly this cell set to `1`, so every cell marked before is still marked,
and the other side's tracker is unchanged. -/
theorem attack_tracker_spec (gs : GameState) (hunt : Hunt) (draws : List Nat)
    (a : AttackOutcome) :
    (parentAttack gs hunt draws = some a →
      ∃ r0 c0 : Fin 8, (c0.val : Int) = a.hitX ∧ (r0.val : Int) = a.hitY ∧
        gs.parentAttackedCells r0 c0 = 0 ∧
        (∀ r c : Fin 8, a.gameState.parentAttackedCells r c =
          if r = r0 ∧ c = c0 then 1 else gs.parentAttackedCells r c) ∧
        (∀ r c : Fin 8, gs.parentAttackedCells r c ≠ 0 →
          a.gameState.parentAttackedCells r c = gs.parentAttackedCells r c ∧
          a.gameState.parentAttackedCells r c ≠ 0) ∧
        a.gameState.childAttackedCells = gs.childAttackedCells) ∧
    (childAttack gs hunt draws = some a →
      ∃ r0 c0 : Fin 8, (c0.val : Int) = a.hitX ∧ (r0.val : Int) = a.hitY ∧
        gs.childAttackedCells r0 c0 = 0 ∧
        (∀ r c : Fin 8, a.gameState.childAttackedCells r c =
          if r = r0 ∧ c = c0 then 1 else gs.childAttackedCells r c) ∧
        (∀ r c : Fin 8, gs.childAttackedCells r c ≠ 0 →
          a.gameState.childAttackedCells r c = gs.childAttackedCells r c ∧
          a.gameState.childAttackedCells r c ≠ 0) ∧
        a.gameState.parentAttackedCells = gs.parentAttackedCells) := by
  constructor
  · intro h
    obtain ⟨t, ht, hx, hy, _, hpa, hca, _, _, _, _⟩ := parentAttack_inv gs hunt draws a h
    obtain ⟨r0, c0, e1, e2, h0, hupd, hkeep⟩ :=
      tracker_update gs.parentAttackedCells t.x t.y (selectTarget_valid _ hunt draws t ht)
    refine ⟨r0, c0, by rw [hx, e1], by rw [hy, e2], h0, ?_, ?_, hca⟩
    · intro r c
      rw [hpa, hupd]
    · intro r c hne
      rw [hpa, hkeep r c hne]
      exact ⟨rfl, hne⟩
  · intro h
    obtain ⟨t, ht, hx, hy, _, hca, hpa, _, _, _, _⟩ := childAttack_inv gs hunt draws a h
    obtain ⟨r0, c0, e1, e2, h0, hupd, hkeep⟩ :=
      tracker_update gs.childAttackedCells t.x t.y (selectTarget_valid _ hunt draws t ht)
    refine ⟨r0, c0, by rw [hx, e1], by rw [hy, e2], h0, ?_, ?_, hpa⟩
    · intro r c
      rw [hca, hupd]
    · intro r c hne
      rw [hca, hkeep r c hne]
      exact ⟨rfl, hne⟩

/-- On the freshly initialised state, with no hunt pending and the draws
`3, 4`, `parentAttack` returns and the tracker property holds for its outcome. -/
theorem attack_tracker_spec_witness :
    ∃ a : AttackOutcome, parentAttack initialGameState noHunt [3, 4] = some a ∧
      ∃ r0 c0 : Fin 8, (c0.val : Int) = a.hitX ∧ (r0.val : Int) = a.hitY ∧
        initialGameState.parentAttackedCells r0 c0 = 0 ∧
        (∀ r c : Fin 8, a.gameState.parentAttackedCells r c =
          if r = r0 ∧ c = c0 then 1 else initialGameState.parentAttackedCells r c) ∧
        (∀ r c : Fin 8, initialGameState.parentAttackedCells r c ≠ 0 →
          a.gameState.parentAttackedCells r c = initialGameState.parentAttackedCells r c ∧
          a.gameState.parentAttackedCells r c ≠ 0) ∧
        a.gameState.childAttackedCells = initialGameState.childAttackedCells := by
  have hs : (parentAttack initialGameState noHunt [3, 4]).isSome = true := by decide
  obtain ⟨a, ha⟩ := Option.isSome_iff_exists.1 hs
  exact ⟨a, ha, (attack_tracker_spec initialGameState noHunt [3, 4] a).1 ha⟩

/-! ## The turn step -/

theorem playGame_parent (w w1 : World) (ret : Bool)
    (h0 : w.gameState.gameStatus0 ≠ GAME_OVER) (h1 : w.gameState.gameStatus1 = PARENT_TURN)
    (h : playGame w = some (w1, ret)) :
    ∃ a : AttackOutcome, parentAttack w.gameState w.parentHunt w.draws = some a ∧
      (((a.result = 1 ∧ checkGameOver a.gameState.childGrid ≠ 0) ∧ ret = false ∧
          w1 = { w with
                 gameState := { a.gameState with gameStatus0 := GAME_OVER }
                 parentHunt := a.hunt, draws := a.draws
                 statusLabel := "Parent wins the game!", turnLabel := "Game Over" }) ∨
        (¬ (a.result = 1 ∧ checkGameOver a.gameState.childGrid ≠ 0) ∧ ret = true ∧
          w1 = { w with
                 gameState := { a.gameState with gameStatus1 := CHILD_TURN }
                 parentHunt := a.hunt, draws := a.draws
                 statusLabel := parentMessage a, turnLabel := "Current Turn: Parent"
                 movesBuffer := w.movesBuffer ++ parentMessage a })) := by
  unfold playGame at h
  rw [if_neg h0, if_pos h1] at h
  split at h
  · exact absurd h (by simp)
  · rename_i a ha
    refine ⟨a, ha, ?_⟩
    simp only at h
    split at h
    · rename_i hover
      simp only [Option.some.injEq, Prod.mk.injEq] at h
      exact Or.inl ⟨hover, h.2.symm, h.1.symm⟩
    · rename_i hover
      simp only [Option.some.injEq, Prod.mk.injEq] at h
      exact Or.inr ⟨hover, h.2.symm, h.1.symm⟩

theorem playGame_child (w w1 : World) (ret : Bool)
    (h0 : w.gameState.gameStatus0 ≠ GAME_OVER) (h1 : w.gameState.gameStatus1 = CHILD_TURN)
    (h : playGame w = some (w1, ret)) :
    ∃ a : AttackOutcome, childAttack w.gameState w.childHunt w.draws = some a ∧
      (((a.result = 1 ∧ checkGameOver a.gameState.parentGrid ≠ 0) ∧ ret = false ∧
          w1 = { w with
                 gameState := { a.gameState with gameStatus0 := GAME_OVER }
                 childHunt := a.hunt, draws := a.draws
                 statusLabel := "Child wins the game!", turnLabel := "Game Over" }) ∨
        (¬ (a.result = 1 ∧ checkGameOver a.gameState.parentGrid ≠ 0) ∧ ret = true ∧
          w1 = { w with
                 gameState := { a.gameState with gameStatus1 := PARENT_TURN }
                 childHunt := a.hunt, draws := a.draws
                 statusLabel := childMessage a, turnLabel := "Current Turn: Child"
                 movesBuffer := w.movesBuffer ++ childMessage a })) := by
  unfold playGame at h
  have h1' : ¬ w.gameState.gameStatus1 = PARENT_TURN := by
    rw [h1]
    decide
  rw [if_neg h0, if_neg h1', if_pos h1] at h
  split at h
  · exact absurd h (by simp)
  · rename_i a ha
    refine ⟨a, ha, ?_⟩
    simp only at h
    split at h
    · rename_i hover
      simp only [Option.some.injEq, Prod.mk.injEq] at h
      exact Or.inl ⟨hover, h.2.symm, h.1.symm⟩
    · rename_i hover
      simp only [Option.some.injEq, Prod.mk.injEq] at h
      exact Or.inr ⟨hover, h.2.symm, h.1.symm⟩

theorem checkGameOver_ne_zero_iff (grid : Grid) :
    checkGameOver grid ≠ 0 ↔ ∀ r c, grid r c ≠ 1 := by
  unfold checkGameOver
  split
  · rename_i h
    simp only [List.any_eq_true, List.mem_finRange, true_and, beq_iff_eq] at h
    simp only [ne_eq, not_true_eq_false, false_iff, not_forall, not_not]
    exact h
  · rename_i h
    simp only [List.any_eq_true, List.mem_finRange, true_and, beq_iff_eq, not_exists] at h
    simp only [ne_eq, one_ne_zero, not_false_eq_true, true_iff]
    exact h

/-- What a result of `playGame` in phase `GAME_CONTINUE` says about the attack
behind it: the halt signal and `GAME_OVER` come exactly with a hit that leaves
the defender without a ship cell, every other result is `TRUE` with the turn
passed on. -/
theorem playGame_halt_of_return (w w1 : World) (ret : Bool)
    (hphase : w.gameState.gameStatus0 = GAME_CONTINUE)
    (h : playGame w = some (w1, ret)) :
    (w.gameState.gameStatus1 = PARENT_TURN →
      ∃ a : AttackOutcome, parentAttack w.gameState w.parentHunt w.draws = some a ∧
        w1.gameState.childGrid = a.gameState.childGrid ∧
        (a.result = 1 ↔ w.gameState.childGrid.read a.hitY a.hitX = 1) ∧
        ((ret = false ∧ w1.gameState.gameStatus0 = GAME_OVER) ↔
          (a.result = 1 ∧ ∀ r c, w1.gameState.childGrid r c ≠ 1)) ∧
        (¬ (a.result = 1 ∧ ∀ r c, w1.gameState.childGrid r c ≠ 1) →
          ret = true ∧ w1.gameState.gameStatus0 = GAME_CONTINUE ∧
          w1.gameState.gameStatus1 = CHILD_TURN)) ∧
    (w.gameState.gameStatus1 = CHILD_TURN →
      ∃ a : AttackOutcome, childAttack w.gameState w.childHunt w.draws = some a ∧
        w1.gameState.parentGrid = a.gameState.parentGrid ∧
        (a.result = 1 ↔ w.gameState.parentGrid.read a.hitY a.hitX = 1) ∧
        ((ret = false ∧ w1.gameState.gameStatus0 = GAME_OVER) ↔
          (a.result = 1 ∧ ∀ r c, w1.gameState.parentGrid r c ≠ 1)) ∧
        (¬ (a.result = 1 ∧ ∀ r c, w1.gameState.parentGrid r c ≠ 1) →
          ret = true ∧ w1.gameState.gameStatus0 = GAME_CONTINUE ∧
          w1.gameState.gameStatus1 = PARENT_TURN)) := by
  have h0 : w.gameState.gameStatus0 ≠ GAME_OVER := by
    rw [hphase]
    decide
  constructor
  · intro hturn
    obtain ⟨a, ha, hcase⟩ := playGame_parent w w1 ret h0 hturn h
    obtain ⟨t, _, hx, hy, _, _, _, _, hs0, _, hres⟩ :=
      parentAttack_inv w.gameState w.parentHunt w.draws a ha
    have hhit : a.result = 1 ↔ w.gameState.childGrid.read a.hitY a.hitX = 1 := by
      rw [hx, hy]
      rcases hres with ⟨h1, h2, _, _⟩ | ⟨h1, h2, _, _⟩
      · simp [h1, h2]
      · simp [h1, h2]
    refine ⟨a, ha, ?_, hhit, ?_, ?_⟩
    · rcases hcase with ⟨_, _, hw⟩ | ⟨_, _, hw⟩ <;> rw [hw]
    · rcases hcase with ⟨hover, hret, hw⟩ | ⟨hover, hret, hw⟩
      · rw [checkGameOver_ne_zero_iff] at hover
        subst hw
        exact ⟨fun _ => hover, fun _ => ⟨hret, rfl⟩⟩
      · rw [checkGameOver_ne_zero_iff] at hover
        subst hw
        constructor
        · rintro ⟨hf, _⟩
          rw [hret] at hf
          exact absurd hf (by decide)
        · intro hov
          exact absurd hov hover
    · intro hnot
      rcases hcase with ⟨hover, hret, hw⟩ | ⟨hover, hret, hw⟩
      · rw [checkGameOver_ne_zero_iff] at hover
        subst hw
        exact absurd hover hnot
      · subst hw
        exact ⟨hret, by simp only [hs0, hphase], rfl⟩
  · intro hturn
    obtain ⟨a, ha, hcase⟩ := playGame_child w w1 ret h0 hturn h
    obtain ⟨t, _, hx, hy, _, _, _, _, hs0, _, hres⟩ :=
      childAttack_inv w.gameState w.childHunt w.draws a ha
    have hhit : a.result = 1 ↔ w.gameState.parentGrid.read a.hitY a.hitX = 1 := by
      rw [hx, hy]
      rcases hres with ⟨h1, h2, _, _⟩ | ⟨h1, h2, _, _⟩
      · simp [h1, h2]
      · simp [h1, h2]
    refine ⟨a, ha, ?_, hhit, ?_, ?_⟩
    · rcases hcase with ⟨_, _, hw⟩ | ⟨_, _, hw⟩ <;> rw [hw]
    · rcases hcase with ⟨hover, hret, hw⟩ | ⟨hover, hret, hw⟩
      · rw [checkGameOver_ne_zero_iff] at hover
        subst hw
        exact ⟨fun _ => hover, fun _ => ⟨hret, rfl⟩⟩
      · rw [checkGameOver_ne_zero_iff] at hover
        subst hw
        constructor
        · rintro ⟨hf, _⟩
          rw [hret] at hf
          exact absurd hf (by decide)
        · intro hov
          exact absurd hov hover
    · intro hnot
      rcases hcase with ⟨hover, hret, hw⟩ | ⟨hover, hret, hw⟩
      · rw [checkGameOver_ne_zero_iff] at hover
        subst hw
        exact absurd hover hnot
      · subst hw
        exact ⟨hret, by simp only [hs0, hphase], rfl⟩

theorem playGame_of_parentAttack (w : World) (a : AttackOutcome)
    (h0 : w.gameState.gameStatus0 ≠ GAME_OVER) (h1 : w.gameState.gameStatus1 = PARENT_TURN)
    (ha : parentAttack w.gameState w.parentHunt w.draws = some a) :
    ∃ (w1 : World) (ret : Bool), playGame w = some (w1, ret) := by
  unfold playGame
  rw [if_neg h0, if_pos h1, ha]
  simp only
  split
  · exact ⟨_, _, rfl⟩
  · exact ⟨_, _, rfl⟩

theorem playGame_of_childAttack (w : World) (a : AttackOutcome)
    (h0 : w.gameState.gameStatus0 ≠ GAME_OVER) (h1 : w.gameState.gameStatus1 = CHILD_TURN)
    (ha : childAttack w.gameState w.childHunt w.draws = some a) :
    ∃ (w1 : World) (ret : Bool), playGame w = some (w1, ret) := by
  have h1' : ¬ w.gameState.gameStatus1 = PARENT_TURN := by
    rw [h1]
    decide
  unfold playGame
  rw [if_neg h0, if_neg h1', if_pos h1, ha]
  simp only
  split
  · exact ⟨_, _, rfl⟩
  · exact ⟨_, _, rfl⟩

/-- C3: in a state with phase `GAME_CONTINUE`, `playGame` makes one attack, by
the parent when it is `PARENT_TURN` and by the child when it is `CHILD_TURN`,
and it returns exactly when that attack returns.  Whenever the attack returns,
`playGame` returns: `FALSE` with the phase set to `GAME_OVER` exactly when the
attack was a hit (its target held a ship cell) and the defender's grid holds
no ship cell afterwards; in every other case `TRUE`, with the phase still
`GAME_CONTINUE` and the turn passed to the side that did not attack. -/
theorem playGame_halt_spec (w : World)
    (hphase : w.gameState.gameStatus0 = GAME_CONTINUE) :
    (w.gameState.gameStatus1 = PARENT_TURN →
      ((playGame w).isSome = true ↔
        (parentAttack w.gameState w.parentHunt w.draws).isSome = true) ∧
      ∀ a : AttackOutcome, parentAttack w.gameState w.parentHunt w.draws = some a →
        ∃ (w1 : World) (ret : Bool), playGame w = some (w1, ret) ∧
          w1.gameState.childGrid = a.gameState.childGrid ∧
          (a.result = 1 ↔ w.gameState.childGrid.read a.hitY a.hitX = 1) ∧
          ((ret = false ∧ w1.gameState.gameStatus0 = GAME_OVER) ↔
            (a.result = 1 ∧ ∀ r c, w1.gameState.childGrid r c ≠ 1)) ∧
          (¬ (a.result = 1 ∧ ∀ r c, w1.gameState.childGrid r c ≠ 1) →
            ret = true ∧ w1.gameState.gameStatus0 = GAME_CONTINUE ∧
            w1.gameState.gameStatus1 = CHILD_TURN)) ∧
    (w.gameState.gameStatus1 = CHILD_TURN →
      ((playGame w).isSome = true ↔
        (childAttack w.gameState w.childHunt w.draws).isSome = true) ∧
      ∀ a : AttackOutcome, childAttack w.gameState w.childHunt w.draws = some a →
        ∃ (w1 : World) (ret : Bool), playGame w = some (w1, ret) ∧
          w1.gameState.parentGrid = a.gameState.parentGrid ∧
          (a.result = 1 ↔ w.gameState.parentGrid.read a.hitY a.hitX = 1) ∧
          ((ret = false ∧ w1.gameState.gameStatus0 = GAME_OVER) ↔
            (a.result = 1 ∧ ∀ r c, w1.gameState.parentGrid r c ≠ 1)) ∧
          (¬ (a.result = 1 ∧ ∀ r c, w1.gameState.parentGrid r c ≠ 1) →
            ret = true ∧ w1.gameState.gameStatus0 = GAME_CONTINUE ∧
            w1.gameState.gameStatus1 = PARENT_TURN)) := by
  have h0 : w.gameState.gameStatus0 ≠ GAME_OVER := by
    rw [hphase]
    decide
  constructor
  · intro hturn
    constructor
    · constructor
      · intro hs
        obtain ⟨res, hres⟩ := Option.isSome_iff_exists.1 hs
        obtain ⟨a, ha, _⟩ := playGame_parent w res.1 res.2 h0 hturn hres
        rw [ha]
        rfl
      · intro hs
        obtain ⟨a, ha⟩ := Option.isSome_iff_exists.1 hs
        obtain ⟨w1, ret, h⟩ := playGame_of_parentAttack w a h0 hturn ha
        rw [h]
        rfl
    · intro a ha
      obtain ⟨w1, ret, h⟩ := playGame_of_parentAttack w a h0 hturn ha
      obtain ⟨a1, ha1, hprops⟩ := (playGame_halt_of_return w w1 ret hphase h).1 hturn
      have hsame : a1 = a := by
        rw [ha] at ha1
        exact (Option.some.inj ha1).symm
      subst hsame
      exact ⟨w1, ret, h, hprops⟩
  · intro hturn
    constructor
    · constructor
      · intro hs
        obtain ⟨res, hres⟩ := Option.isSome_iff_exists.1 hs
        obtain ⟨a, ha, _⟩ := playGame_child w res.1 res.2 h0 hturn hres
        rw [ha]
        rfl
      · intro hs
        obtain ⟨a, ha⟩ := Option.isSome_iff_exists.1 hs
        obtain ⟨w1, ret, h⟩ := playGame_of_childAttack w a h0 hturn ha
        rw [h]
        rfl
    · intro a ha
      obtain ⟨w1, ret, h⟩ := playGame_of_childAttack w a h0 hturn ha
      obtain ⟨a1, ha1, hprops⟩ := (playGame_halt_of_return w w1 ret hphase h).2 hturn
      have hsame : a1 = a := by
        rw [ha] at ha1
        exact (Option.some.inj ha1).symm
      subst hsame
      exact ⟨w1, ret, h, hprops⟩

/-- C3 on the state `scenarioWorld` is in after two calls (the parent hit
`(0,0)`, the child missed `(5,5)`): it is the parent's turn in phase
`GAME_CONTINUE`, the attack returns with a hit, and `playGame` returns `FALSE`
with the phase set to `GAME_OVER` and no ship cell left in the child's grid. -/
theorem playGame_halt_spec_witness :
    ∃ (w w1 : World) (a : AttackOutcome),
      playGameTimes 2 scenarioWorld = some w ∧
      w.gameState.gameStatus0 = GAME_CONTINUE ∧ w.gameState.gameStatus1 = PARENT_TURN ∧
      parentAttack w.gameState w.parentHunt w.draws = some a ∧
      playGame w = some (w1, false) ∧ w1.gameState.gameStatus0 = GAME_OVER ∧
      a.result = 1 ∧ ∀ r c, w1.gameState.childGrid r c ≠ 1 := by
  have hst : (playGameTimes 2 scenarioWorld).map
      (fun w => (w.gameState.gameStatus0, w.gameState.gameStatus1)) =
      some (GAME_CONTINUE, PARENT_TURN) := by decide
  have hatt : ((playGameTimes 2 scenarioWorld).bind
      (fun w => parentAttack w.gameState w.parentHunt w.draws)).isSome = true := by decide
  have hend : ((playGameTimes 2 scenarioWorld).bind playGame).map
      (fun r => (r.2, r.1.gameState.gameStatus0)) = some (false, GAME_OVER) := by decide
  match hw : playGameTimes 2 scenarioWorld with
  | none =>
    rw [hw] at hst
    exact absurd hst (by simp)
  | some w =>
    rw [hw] at hst hatt hend
    simp only [Option.map_some', Option.some.injEq, Prod.mk.injEq] at hst
    simp only [Option.some_bind] at hatt hend
    obtain ⟨a, ha⟩ := Option.isSome_iff_exists.1 hatt
    obtain ⟨w1, ret, hplay, _, _, hiff, _⟩ :=
      ((playGame_halt_spec w hst.1).1 hst.2).2 a ha
    rw [hplay] at hend
    simp only [Option.map_some', Option.some.injEq, Prod.mk.injEq] at hend
    obtain ⟨hret, hover⟩ := hend
    subst hret
    obtain ⟨hhit, hnone⟩ := hiff.1 ⟨rfl, hover⟩
    exact ⟨w, w1, a, rfl, hst.1, hst.2, ha, hplay, hover, hhit, hnone⟩

/-! ## Hunt order -/

theorem huntLoop_directions (ac : Grid) (hx hy : Int) :
    huntLoop ac hx hy directions = firstValidNeighbour ac hx hy := by
  have e1 : hx + -1 = hx - 1 := rfl
  have e2 : hy + -1 = hy - 1 := rfl
  simp only [huntLoop, directions, firstValidNeighbour, e1, e2, add_zero]

theorem firstValidNeighbour_isSome (ac : Grid) (hx hy : Int)
    (h : isValidAttack ac (hx - 1) hy ≠ 0 ∨ isValidAttack ac (hx + 1) hy ≠ 0 ∨
      isValidAttack ac hx (hy - 1) ≠ 0 ∨ isValidAttack ac hx (hy + 1) ≠ 0) :
    ∃ p, firstValidNeighbour ac hx hy = some p := by
  unfold firstValidNeighbour
  by_cases h1 : isValidAttack ac (hx - 1) hy ≠ 0
  · exact ⟨_, if_pos h1⟩
  · rw [if_neg h1]
    by_cases h2 : isValidAttack ac (hx + 1) hy ≠ 0
    · exact ⟨_, if_pos h2⟩
    · rw [if_neg h2]
      by_cases h3 : isValidAttack ac hx (hy - 1) ≠ 0
      · exact ⟨_, if_pos h3⟩
      · rw [if_neg h3]
        by_cases h4 : isValidAttack ac hx (hy + 1) ≠ 0
        · exact ⟨_, if_pos h4⟩
        · rcases h with h | h | h | h
          · exact absurd h h1
          · exact absurd h h2
          · exact absurd h h3
          · exact absurd h h4

theorem selectTarget_hunt (ac : Grid) (hunt : Hunt) (draws : List Nat) (p : Int × Int)
    (hpending : hunt.lastHitX ≠ -1 ∧ hunt.lastHitY ≠ -1)
    (hp : firstValidNeighbour ac hunt.lastHitX hunt.lastHitY = some p) :
    selectTarget ac hunt draws = some ⟨p.1, p.2, hunt, draws⟩ := by
  unfold selectTarget
  rw [if_pos hpending, huntLoop_directions, hp]

/-- C7: when a hunt is pending (both statics differ from `-1`) and at least one
of the four neighbours of `(lastHitX, lastHitY)` is a valid attack on the
attacker's tracker, `parentAttack` (resp. `childAttack`) returns for any draws,
consumes none of them, and its target is the first valid neighbour in the
order left, right, up, down.  In particular, with the hunt at `(3, 3)` and
`(3, 2)` the only unmarked neighbour, the target is `(3, 2)`. -/
theorem hunt_order_spec (gs : GameState) (hunt : Hunt) (draws : List Nat) :
    (hunt.lastHitX ≠ -1 ∧ hunt.lastHitY ≠ -1 →
      (isValidAttack gs.parentAttackedCells (hunt.lastHitX - 1) hunt.lastHitY ≠ 0 ∨
        isValidAttack gs.parentAttackedCells (hunt.lastHitX + 1) hunt.lastHitY ≠ 0 ∨
        isValidAttack gs.parentAttackedCells hunt.lastHitX (hunt.lastHitY - 1) ≠ 0 ∨
        isValidAttack gs.parentAttackedCells hunt.lastHitX (hunt.lastHitY + 1) ≠ 0) →
      ∃ a : AttackOutcome, parentAttack gs hunt draws = some a ∧ a.draws = draws ∧
        firstValidNeighbour gs.parentAttackedCells hunt.lastHitX hunt.lastHitY =
          some (a.hitX, a.hitY)) ∧
    (hunt.lastHitX ≠ -1 ∧ hunt.lastHitY ≠ -1 →
      (isValidAttack gs.childAttackedCells (hunt.lastHitX - 1) hunt.lastHitY ≠ 0 ∨
        isValidAttack gs.childAttackedCells (hunt.lastHitX + 1) hunt.lastHitY ≠ 0 ∨
        isValidAttack gs.childAttackedCells hunt.lastHitX (hunt.lastHitY - 1) ≠ 0 ∨
        isValidAttack gs.childAttackedCells hunt.lastHitX (hunt.lastHitY + 1) ≠ 0) →
      ∃ a : AttackOutcome, childAttack gs hunt draws = some a ∧ a.draws = draws ∧
        firstValidNeighbour gs.childAttackedCells hunt.lastHitX hunt.lastHitY =
          some (a.hitX, a.hitY)) ∧
    (hunt.lastHitX = 3 ∧ hunt.lastHitY = 3 →
      gs.parentAttackedCells 3 2 ≠ 0 → gs.parentAttackedCells 3 4 ≠ 0 →
      gs.parentAttackedCells 2 3 = 0 → gs.parentAttackedCells 4 3 ≠ 0 →
      ∃ a : AttackOutcome, parentAttack gs hunt draws = some a ∧ a.draws = draws ∧
        a.hitX = 3 ∧ a.hitY = 2) ∧
    (hunt.lastHitX = 3 ∧ hunt.lastHitY = 3 →
      gs.childAttackedCells 3 2 ≠ 0 → gs.childAttackedCells 3 4 ≠ 0 →
      gs.childAttackedCells 2 3 = 0 → gs.childAttackedCells 4 3 ≠ 0 →
      ∃ a : AttackOutcome, childAttack gs hunt draws = some a ∧ a.draws = draws ∧
        a.hitX = 3 ∧ a.hitY = 2) := by
  have parentCase : ∀ p : Int × Int,
      hunt.lastHitX ≠ -1 ∧ hunt.lastHitY ≠ -1 →
      firstValidNeighbour gs.parentAttackedCells hunt.lastHitX hunt.lastHitY = some p →
      ∃ a : AttackOutcome, parentAttack gs hunt draws = some a ∧ a.draws = draws ∧
        a.hitX = p.1 ∧ a.hitY = p.2 := by
    intro p hpending hp
    have hsel := selectTarget_hunt gs.parentAttackedCells hunt draws p hpending hp
    unfold parentAttack
    rw [hsel]
    simp only
    split
    · exact ⟨_, rfl, rfl, rfl, rfl⟩
    · exact ⟨_, rfl, rfl, rfl, rfl⟩
  have childCase : ∀ p : Int × Int,
      hunt.lastHitX ≠ -1 ∧ hunt.lastHitY ≠ -1 →
      firstValidNeighbour gs.childAttackedCells hunt.lastHitX hunt.lastHitY = some p →
      ∃ a : AttackOutcome, childAttack gs hunt draws = some a ∧ a.draws = draws ∧
        a.hitX = p.1 ∧ a.hitY = p.2 := by
    intro p hpending hp
    have hsel := selectTarget_hunt gs.childAttackedCells hunt draws p hpending hp
    unfold childAttack
    rw [hsel]
    simp only
    split
    · exact ⟨_, rfl, rfl, rfl, rfl⟩
    · exact ⟨_, rfl, rfl, rfl, rfl⟩
  have only32 : ∀ ac : Grid, ac 3 2 ≠ 0 → ac 3 4 ≠ 0 → ac 2 3 = 0 → ac 4 3 ≠ 0 →
      firstValidNeighbour ac 3 3 = some (3, 2) := by
    intro ac hl hr hu _
    have vl : ¬ isValidAttack ac (3 - 1) 3 ≠ 0 := by
      rw [isValidAttack_ne_zero_iff]
      rintro ⟨_, h⟩
      exact hl (by simpa [Grid.read] using h)
    have vr : ¬ isValidAttack ac (3 + 1) 3 ≠ 0 := by
      rw [isValidAttack_ne_zero_iff]
      rintro ⟨_, h⟩
      exact hr (by simpa [Grid.read] using h)
    have vu : isValidAttack ac 3 (3 - 1) ≠ 0 := by
      rw [isValidAttack_ne_zero_iff]
      exact ⟨by decide, by simpa [Grid.read] using hu⟩
    unfold firstValidNeighbour
    rw [if_neg vl, if_neg vr, if_pos vu]
    rfl
  refine ⟨?_, ?_, ?_, ?_⟩
  · intro hpending hvalid
    obtain ⟨p, hp⟩ := firstValidNeighbour_isSome _ _ _ hvalid
    obtain ⟨a, ha, hd, hx, hy⟩ := parentCase p hpending hp
    exact ⟨a, ha, hd, by rw [hp, hx, hy]⟩
  · intro hpending hvalid
    obtain ⟨p, hp⟩ := firstValidNeighbour_isSome _ _ _ hvalid
    obtain ⟨a, ha, hd, hx, hy⟩ := childCase p hpending hp
    exact ⟨a, ha, hd, by rw [hp, hx, hy]⟩
  · rintro ⟨hx3, hy3⟩ hl hr hu hd
    have hp : firstValidNeighbour gs.parentAttackedCells hunt.lastHitX hunt.lastHitY =
        some (3, 2) := by
      rw [hx3, hy3]
      exact only32 gs.parentAttackedCells hl hr hu hd
    exact parentCase (3, 2) (by rw [hx3, hy3]; decide) hp
  · rintro ⟨hx3, hy3⟩ hl hr hu hd
    have hp : firstValidNeighbour gs.childAttackedCells hunt.lastHitX hunt.lastHitY =
        some (3, 2) := by
      rw [hx3, hy3]
      exact only32 gs.childAttackedCells hl hr hu hd
    exact childCase (3, 2) (by rw [hx3, hy3]; decide) hp

/-- C7 on `huntSampleState` with the hunt at `(3, 3)` and no draws at all:
`parentAttack` returns and targets `(3, 2)`. -/
theorem hunt_order_spec_witness :
    ∃ a : AttackOutcome, parentAttack huntSampleState ⟨3, 3⟩ [] = some a ∧ a.draws = [] ∧
      a.hitX = 3 ∧ a.hitY = 2 :=
  (hunt_order_spec huntSampleState ⟨3, 3⟩ []).2.2.1 ⟨rfl, rfl⟩
    (by decide) (by decide) (by decide) (by decide)

/-! ## The finished match -/

/-- C9: in a state with phase `GAME_OVER`, `playGame` returns `FALSE` and the
whole state (both grids, both trackers, the statics of both attack functions,
the move history, the labels, the phase, the turn and the pending draws) is
unchanged; any number of calls leaves the same state. -/
theorem playGame_over_noop (w : World) (h : w.gameState.gameStatus0 = GAME_OVER) :
    playGame w = some (w, false) ∧ ∀ n : Nat, playGameTimes n w = some w := by
  have h1 : playGame w = some (w, false) := by
    unfold playGame
    rw [if_pos h]
  refine ⟨h1, ?_⟩
  intro n
  induction n with
  | zero => rfl
  | succ n ih =>
    simp only [playGameTimes, h1]
    exact ih

/-- C9 at `overWorld`. -/
theorem playGame_over_noop_witness :
    overWorld.gameState.gameStatus0 = GAME_OVER ∧
    playGame overWorld = some (overWorld, false) ∧
    ∀ n : Nat, playGameTimes n overWorld = some overWorld :=
  ⟨rfl, playGame_over_noop overWorld rfl⟩

/-! ## Persistence -/

theorem length_intToBytes (v : Int) : (intToBytes v).length = 4 := rfl

theorem bytesToInt_intToBytes (v : Int) (hv : IsCInt v) :
    bytesToInt ((intToBytes v).getD 0 0) ((intToBytes v).getD 1 0)
      ((intToBytes v).getD 2 0) ((intToBytes v).getD 3 0) = v := by
  obtain ⟨hlo, hhi⟩ := hv
  simp only [intToBytes, bytesToInt, List.getD_cons_zero, List.getD_cons_succ]
  have hu : (((v % 4294967296).toNat : Nat) : Int) = v % 4294967296 :=
    Int.toNat_of_nonneg (Int.emod_nonneg _ (by decide))
  generalize (v % 4294967296).toNat = u at hu
  split <;> omega

theorem length_wordImage (f : Nat → Int) (n : Nat) :
    ((List.range n).flatMap fun k => intToBytes (f k)).length = 4 * n := by
  induction n with
  | zero => rfl
  | succ n ih =>
    rw [List.range_succ, List.flatMap_append, List.flatMap_singleton, List.length_append, ih,
      length_intToBytes]
    omega

theorem getD_wordImage (f : Nat → Int) (n k j : Nat) (hk : k < n) (hj : j < 4) :
    ((List.range n).flatMap fun k => intToBytes (f k)).getD (4 * k + j) 0 =
      (intToBytes (f k)).getD j 0 := by
  induction n with
  | zero => omega
  | succ n ih =>
    rw [List.range_succ, List.flatMap_append, List.flatMap_singleton]
    rcases Nat.lt_succ_iff_lt_or_eq.1 hk with h | h
    · rw [List.getD_append _ _ _ _ (by rw [length_wordImage]; omega)]
      exact ih h
    · subst h
      rw [List.getD_append_right _ _ _ _ (by rw [length_wordImage]; omega), length_wordImage]
      congr 1
      omega

theorem length_objectBytes (s : GameState) : (objectBytes s).length = 1032 := by
  unfold objectBytes gameStateWords
  rw [length_wordImage]

theorem intAt_objectBytes (s : GameState) (k : Nat) (hk : k < 258) (hv : IsCInt (s.word k)) :
    intAt (objectBytes s) k = s.word k := by
  unfold intAt objectBytes gameStateWords
  have e0 := getD_wordImage s.word 258 k 0 hk (by decide)
  have e1 := getD_wordImage s.word 258 k 1 hk (by decide)
  have e2 := getD_wordImage s.word 258 k 2 hk (by decide)
  have e3 := getD_wordImage s.word 258 k 3 hk (by decide)
  rw [Nat.add_zero] at e0
  rw [e0, e1, e2, e3]
  exact bytesToInt_intToBytes _ hv

theorem GameState.eq_of_fields (a b : GameState)
    (h1 : a.parentGrid = b.parentGrid) (h2 : a.childGrid = b.childGrid)
    (h3 : a.parentAttackedCells = b.parentAttackedCells)
    (h4 : a.childAttackedCells = b.childAttackedCells)
    (h5 : a.gameStatus0 = b.gameStatus0) (h6 : a.gameStatus1 = b.gameStatus1) : a = b := by
  cases a
  cases b
  simp only at h1 h2 h3 h4 h5 h6
  subst h1 h2 h3 h4 h5 h6
  rfl

theorem word_parentGrid (s : GameState) (r c : Fin 8) :
    s.word (8 * r.val + c.val) = s.parentGrid r c := by
  have hr := r.isLt
  have hc := c.isLt
  unfold GameState.word
  rw [dif_pos (by omega)]
  exact congrArg₂ s.parentGrid (Fin.ext (by simp only []; omega))
    (Fin.ext (by simp only []; omega))

theorem word_childGrid (s : GameState) (r c : Fin 8) :
    s.word (64 + 8 * r.val + c.val) = s.childGrid r c := by
  have hr := r.isLt
  have hc := c.isLt
  unfold GameState.word
  rw [dif_neg (by omega), dif_pos (by omega)]
  exact congrArg₂ s.childGrid (Fin.ext (by simp only []; omega))
    (Fin.ext (by simp only []; omega))

theorem word_parentAttackedCells (s : GameState) (r c : Fin 8) :
    s.word (128 + 8 * r.val + c.val) = s.parentAttackedCells r c := by
  have hr := r.isLt
  have hc := c.isLt
  unfold GameState.word
  rw [dif_neg (by omega), dif_neg (by omega), dif_pos (by omega)]
  exact congrArg₂ s.parentAttackedCells (Fin.ext (by simp only []; omega))
    (Fin.ext (by simp only []; omega))

theorem word_childAttackedCells (s : GameState) (r c : Fin 8) :
    s.word (192 + 8 * r.val + c.val) = s.childAttackedCells r c := by
  have hr := r.isLt
  have hc := c.isLt
  unfold GameState.word
  rw [dif_neg (by omega), dif_neg (by omega), dif_neg (by omega), dif_pos (by omega)]
  exact congrArg₂ s.childAttackedCells (Fin.ext (by simp only []; omega))
    (Fin.ext (by simp only []; omega))

theorem word_gameStatus0 (s : GameState) : s.word 256 = s.gameStatus0 := rfl

theorem word_gameStatus1 (s : GameState) : s.word 257 = s.gameStatus1 := rfl

theorem ofBytes_gameStatus0 (mem : List Byte) :
    (GameState.ofBytes mem).gameStatus0 = intAt mem 256 := rfl

theorem ofBytes_gameStatus1 (mem : List Byte) :
    (GameState.ofBytes mem).gameStatus1 = intAt mem 257 := rfl

theorem ofBytes_objectBytes (s : GameState) (hs : s.Representable) :
    GameState.ofBytes (objectBytes s) = s := by
  obtain ⟨hpg, hcg, hpa, hca, h0, h1⟩ := hs
  apply GameState.eq_of_fields
  · funext r c
    have hr := r.isLt
    have hc := c.isLt
    show intAt (objectBytes s) (8 * r.val + c.val) = s.parentGrid r c
    rw [intAt_objectBytes _ _ (by omega) (by rw [word_parentGrid]; exact hpg r c),
      word_parentGrid]
  · funext r c
    have hr := r.isLt
    have hc := c.isLt
    show intAt (objectBytes s) (64 + 8 * r.val + c.val) = s.childGrid r c
    rw [intAt_objectBytes _ _ (by omega) (by rw [word_childGrid]; exact hcg r c),
      word_childGrid]
  · funext r c
    have hr := r.isLt
    have hc := c.isLt
    show intAt (objectBytes s) (128 + 8 * r.val + c.val) = s.parentAttackedCells r c
    rw [intAt_objectBytes _ _ (by omega) (by rw [word_parentAttackedCells]; exact hpa r c),
      word_parentAttackedCells]
  · funext r c
    have hr := r.isLt
    have hc := c.isLt
    show intAt (objectBytes s) (192 + 8 * r.val + c.val) = s.childAttackedCells r c
    rw [intAt_objectBytes _ _ (by omega) (by rw [word_childAttackedCells]; exact hca r c),
      word_childAttackedCells]
  · rw [ofBytes_gameStatus0,
      intAt_objectBytes _ _ (by omega) (by rw [word_gameStatus0]; exact h0), word_gameStatus0]
  · rw [ofBytes_gameStatus1,
      intAt_objectBytes _ _ (by omega) (by rw [word_gameStatus1]; exact h1), word_gameStatus1]

theorem fread_full (mem file : List Byte) (h : file.length = mem.length) :
    fread mem file = file := by
  unfold fread
  rw [← h, List.take_length, List.drop_of_length_le (by omega), List.append_nil]

/-- C4: for every state `s` whose fields are C `int`s, when `saveGameState` can
open the file it writes 1032 bytes, and `loadGameState` on a file with these
bytes returns `1` and turns any previous state `dest` into `s`, equal in both
grids, both trackers, `gameStatus[0]` and `gameStatus[1]`. -/
theorem load_save_roundtrip (s dest : GameState) (hs : s.Representable)
    (file : Option (List Byte)) (label0 label1 : String) :
    ∃ bytes : List Byte,
      (saveGameState true s file label0).1 = some bytes ∧ bytes.length = 1032 ∧
      loadGameState (some bytes) dest label1 = (s, "Game state loaded.", 1) := by
  refine ⟨objectBytes s, rfl, length_objectBytes s, ?_⟩
  unfold loadGameState
  simp only
  rw [fread_full _ _ (by rw [length_objectBytes, length_objectBytes]), ofBytes_objectBytes s hs]

/-- C4 at `sampleSavedState`, loaded over the freshly initialised state. -/
theorem load_save_roundtrip_witness :
    sampleSavedState.Representable ∧
    ∃ bytes : List Byte,
      (saveGameState true sampleSavedState none "").1 = some bytes ∧ bytes.length = 1032 ∧
      loadGameState (some bytes) initialGameState "" =
        (sampleSavedState, "Game state loaded.", 1) :=
  have hs : sampleSavedState.Representable := by
    unfold GameState.Representable
    decide
  ⟨hs, load_save_roundtrip sampleSavedState initialGameState hs none "" ""⟩

set_option maxRecDepth 1000000 in
/-- C5 fails on the code: `loadGameState` returns `1` for every file it can
open, whatever its length, and on the four-byte file `shortFile` it returns
`1` and overwrites `parentGrid[0][0]` of the freshly initialised state (`0`)
with `1`. -/
theorem loadGameState_short_file :
    (∀ (bytes : List Byte) (gs : GameState) (label : String),
      (loadGameState (some bytes) gs label).2.2 = 1) ∧
    shortFile.length ≠ 1032 ∧
    (loadGameState (some shortFile) initialGameState "").2.2 = 1 ∧
    initialGameState.parentGrid 0 0 = 0 ∧
    (loadGameState (some shortFile) initialGameState "").1.parentGrid 0 0 = 1 := by
  refine ⟨fun _ _ _ => rfl, by decide, rfl, rfl, ?_⟩
  decide

/-- C6 fails on the code: in `scenarioWorld` the parent hits `(0,0)`, the child
misses `(5,5)`, and the parent's hit on `(1,0)` ends the match; that third call
returns `FALSE` with phase `GAME_OVER` and both ship cells hit, yet the move
history still holds only the first two lines: the winning hit is not appended. -/
theorem playGame_winning_move_not_logged :
    (playGameTimes 2 scenarioWorld).map (fun w => w.movesBuffer) =
      some "Parent hit at (0, 0)\nChild missed at (5, 5)\n" ∧
    ((playGameTimes 2 scenarioWorld).bind playGame).map
        (fun r => (r.2, r.1.movesBuffer, r.1.gameState.gameStatus0,
          r.1.gameState.childGrid 0 0, r.1.gameState.childGrid 0 1)) =
      some (false, "Parent hit at (0, 0)\nChild missed at (5, 5)\n", GAME_OVER, 2, 2) := by
  constructor <;> decide

/-! ## Effect of one attack, cell by cell -/

theorem write_coe (g : Grid) (r0 c0 : Fin 8) (v : Int) (r c : Fin 8) :
    g.write (r0.val : Int) (c0.val : Int) v r c = if r = r0 ∧ c = c0 then v else g r c := by
  rw [write_apply]
  have hiff : ((r.val : Int) = (r0.val : Int) ∧ (c.val : Int) = (c0.val : Int)) ↔
      (r = r0 ∧ c = c0) := by
    simp only [Fin.ext_iff]
    omega
  simp only [hiff]

theorem parentAttack_cells (gs : GameState) (hunt : Hunt) (draws : List Nat)
    (a : AttackOutcome) (h : parentAttack gs hunt draws = some a) :
    ∃ r0 c0 : Fin 8, (c0.val : Int) = a.hitX ∧ (r0.val : Int) = a.hitY ∧
      gs.parentAttackedCells r0 c0 = 0 ∧
      (∀ r c : Fin 8, a.gameState.parentAttackedCells r c =
        if r = r0 ∧ c = c0 then 1 else gs.parentAttackedCells r c) ∧
      a.gameState.childAttackedCells = gs.childAttackedCells ∧
      a.gameState.parentGrid = gs.parentGrid ∧
      a.gameState.gameStatus0 = gs.gameStatus0 ∧ a.gameState.gameStatus1 = gs.gameStatus1 ∧
      ((gs.childGrid r0 c0 = 1 ∧ a.result = 1 ∧
          ∀ r c : Fin 8, a.gameState.childGrid r c =
            if r = r0 ∧ c = c0 then 2 else gs.childGrid r c) ∨
        (gs.childGrid r0 c0 ≠ 1 ∧ a.result = 0 ∧
          ∀ r c : Fin 8, a.gameState.childGrid r c =
            if r = r0 ∧ c = c0 then -1 else gs.childGrid r c)) := by
  obtain ⟨t, ht, hx, hy, _, hpa, hca, hpg, hs0, hs1, hres⟩ := parentAttack_inv gs hunt draws a h
  obtain ⟨r0, c0, e1, e2, h0, _, _⟩ :=
    tracker_update gs.parentAttackedCells t.x t.y (selectTarget_valid _ hunt draws t ht)
  rw [← e1, ← e2] at hpa hres
  rw [read_coe] at hres
  refine ⟨r0, c0, by rw [hx, e1], by rw [hy, e2], h0, ?_, hca, hpg, hs0, hs1, ?_⟩
  · intro r c
    rw [hpa, write_coe]
  · rcases hres with ⟨h1, h2, _, h4⟩ | ⟨h1, h2, _, h4⟩
    · refine Or.inl ⟨h1, h2, ?_⟩
      intro r c
      rw [h4, write_coe]
    · refine Or.inr ⟨h1, h2, ?_⟩
      intro r c
      rw [h4, write_coe]

theorem childAttack_cells (gs : GameState) (hunt : Hunt) (draws : List Nat)
    (a : AttackOutcome) (h : childAttack gs hunt draws = some a) :
    ∃ r0 c0 : Fin 8, (c0.val : Int) = a.hitX ∧ (r0.val : Int) = a.hitY ∧
      gs.childAttackedCells r0 c0 = 0 ∧
      (∀ r c : Fin 8, a.gameState.childAttackedCells r c =
        if r = r0 ∧ c = c0 then 1 else gs.childAttackedCells r c) ∧
      a.gameState.parentAttackedCells = gs.parentAttackedCells ∧
      a.gameState.childGrid = gs.childGrid ∧
      a.gameState.gameStatus0 = gs.gameStatus0 ∧ a.gameState.gameStatus1 = gs.gameStatus1 ∧
      ((gs.parentGrid r0 c0 = 1 ∧ a.result = 1 ∧
          ∀ r c : Fin 8, a.gameState.parentGrid r c =
            if r = r0 ∧ c = c0 then 2 else gs.parentGrid r c) ∨
        (gs.parentGrid r0 c0 ≠ 1 ∧ a.result = 0 ∧
          ∀ r c : Fin 8, a.gameState.parentGrid r c =
            if r = r0 ∧ c = c0 then -1 else gs.parentGrid r c)) := by
  obtain ⟨t, ht, hx, hy, _, hca, hpa, hcg, hs0, hs1, hres⟩ := childAttack_inv gs hunt draws a h
  obtain ⟨r0, c0, e1, e2, h0, _, _⟩ :=
    tracker_update gs.childAttackedCells t.x t.y (selectTarget_valid _ hunt draws t ht)
  rw [← e1, ← e2] at hca hres
  rw [read_coe] at hres
  refine ⟨r0, c0, by rw [hx, e1], by rw [hy, e2], h0, ?_, hpa, hcg, hs0, hs1, ?_⟩
  · intro r c
    rw [hca, write_coe]
  · rcases hres with ⟨h1, h2, _, h4⟩ | ⟨h1, h2, _, h4⟩
    · refine Or.inl ⟨h1, h2, ?_⟩
      intro r c
      rw [h4, write_coe]
    · refine Or.inr ⟨h1, h2, ?_⟩
      intro r c
      rw [h4, write_coe]

/-- The game state a call of `playGame` leaves: unchanged when no attack is made,
otherwise the attack's state with the phase or the turn updated. -/
theorem playGame_gameState (w w1 : World) (ret : Bool) (h : playGame w = some (w1, ret)) :
    w1.gameState = w.gameState ∨
    (w.gameState.gameStatus0 ≠ GAME_OVER ∧ w.gameState.gameStatus1 = PARENT_TURN ∧
      ∃ a : AttackOutcome, parentAttack w.gameState w.parentHunt w.draws = some a ∧
        ((a.result = 1 ∧ checkGameOver a.gameState.childGrid ≠ 0 ∧
            w1.gameState = { a.gameState with gameStatus0 := GAME_OVER }) ∨
          (¬ (a.result = 1 ∧ checkGameOver a.gameState.childGrid ≠ 0) ∧
            w1.gameState = { a.gameState with gameStatus1 := CHILD_TURN }))) ∨
    (w.gameState.gameStatus0 ≠ GAME_OVER ∧ w.gameState.gameStatus1 = CHILD_TURN ∧
      ∃ a : AttackOutcome, childAttack w.gameState w.childHunt w.draws = some a ∧
        ((a.result = 1 ∧ checkGameOver a.gameState.parentGrid ≠ 0 ∧
            w1.gameState = { a.gameState with gameStatus0 := GAME_OVER }) ∨
          (¬ (a.result = 1 ∧ checkGameOver a.gameState.parentGrid ≠ 0) ∧
            w1.gameState = { a.gameState with gameStatus1 := PARENT_TURN }))) := by
  by_cases h0 : w.gameState.gameStatus0 = GAME_OVER
  · left
    unfold playGame at h
    rw [if_pos h0] at h
    simp only [Option.some.injEq, Prod.mk.injEq] at h
    rw [← h.1]
  · by_cases hp : w.gameState.gameStatus1 = PARENT_TURN
    · right
      left
      obtain ⟨a, ha, hcase⟩ := playGame_parent w w1 ret h0 hp h
      refine ⟨h0, hp, a, ha, ?_⟩
      rcases hcase with ⟨hover, _, hw⟩ | ⟨hover, _, hw⟩
      · exact Or.inl ⟨hover.1, hover.2, by rw [hw]⟩
      · exact Or.inr ⟨hover, by rw [hw]⟩
    · by_cases hc : w.gameState.gameStatus1 = CHILD_TURN
      · right
        right
        obtain ⟨a, ha, hcase⟩ := playGame_child w w1 ret h0 hc h
        refine ⟨h0, hc, a, ha, ?_⟩
        rcases hcase with ⟨hover, _, hw⟩ | ⟨hover, _, hw⟩
        · exact Or.inl ⟨hover.1, hover.2, by rw [hw]⟩
        · exact Or.inr ⟨hover, by rw [hw]⟩
      · left
        unfold playGame at h
        rw [if_neg h0, if_neg hp, if_neg hc] at h
        simp only [Option.some.injEq, Prod.mk.injEq] at h
        rw [← h.1]

/-- A property of the game state that every call of `playGame` keeps holds after
any number of calls. -/
theorem playGameTimes_keeps (P : GameState → Prop)
    (hstep : ∀ (w w1 : World) (ret : Bool),
      P w.gameState → playGame w = some (w1, ret) → P w1.gameState) :
    ∀ (n : Nat) (w0 w : World), P w0.gameState → playGameTimes n w0 = some w →
      P w.gameState := by
  intro n
  induction n with
  | zero =>
    intro w0 w h0 h
    simp only [playGameTimes, Option.some.injEq] at h
    rw [← h]
    exact h0
  | succ n ih =>
    intro w0 w h0 h
    simp only [playGameTimes] at h
    split at h
    · exact absurd h (by simp)
    · rename_i w1 ret hplay
      exact ih w1 w (hstep w0 w1 ret h0 hplay) h

/-! ## Cell transitions in reachable states -/

theorem unmarkedIntact_of_fresh (gs : GameState) (h : FreshSetup gs) : UnmarkedIntact gs :=
  ⟨fun r c _ => h.2.2.2 r c, fun r c _ => h.2.2.1 r c⟩

theorem parentAttack_unmarkedIntact (gs : GameState) (hunt : Hunt) (draws : List Nat)
    (a : AttackOutcome) (hinv : UnmarkedIntact gs) (h : parentAttack gs hunt draws = some a) :
    UnmarkedIntact a.gameState := by
  obtain ⟨r0, c0, _, _, _, hpa, hca, hpg, _, _, hres⟩ := parentAttack_cells gs hunt draws a h
  constructor
  · intro r c hz
    rw [hpa] at hz
    by_cases hrc : r = r0 ∧ c = c0
    · rw [if_pos hrc] at hz
      exact absurd hz (by decide)
    · rw [if_neg hrc] at hz
      rcases hres with ⟨_, _, hg⟩ | ⟨_, _, hg⟩
      · rw [hg, if_neg hrc]
        exact hinv.1 r c hz
      · rw [hg, if_neg hrc]
        exact hinv.1 r c hz
  · intro r c hz
    rw [hca] at hz
    rw [hpg]
    exact hinv.2 r c hz

theorem childAttack_unmarkedIntact (gs : GameState) (hunt : Hunt) (draws : List Nat)
    (a : AttackOutcome) (hinv : UnmarkedIntact gs) (h : childAttack gs hunt draws = some a) :
    UnmarkedIntact a.gameState := by
  obtain ⟨r0, c0, _, _, _, hca, hpa, hcg, _, _, hres⟩ := childAttack_cells gs hunt draws a h
  constructor
  · intro r c hz
    rw [hpa] at hz
    rw [hcg]
    exact hinv.1 r c hz
  · intro r c hz
    rw [hca] at hz
    by_cases hrc : r = r0 ∧ c = c0
    · rw [if_pos hrc] at hz
      exact absurd hz (by decide)
    · rw [if_neg hrc] at hz
      rcases hres with ⟨_, _, hg⟩ | ⟨_, _, hg⟩
      · rw [hg, if_neg hrc]
        exact hinv.2 r c hz
      · rw [hg, if_neg hrc]
        exact hinv.2 r c hz

theorem playGame_unmarkedIntact (w w1 : World) (ret : Bool)
    (hinv : UnmarkedIntact w.gameState) (h : playGame w = some (w1, ret)) :
    UnmarkedIntact w1.gameState := by
  rcases playGame_gameState w w1 ret h with hsame | ⟨_, _, a, ha, hcase⟩ | ⟨_, _, a, ha, hcase⟩
  · rw [hsame]
    exact hinv
  · have hia := parentAttack_unmarkedIntact _ _ _ a hinv ha
    rcases hcase with ⟨_, _, hw⟩ | ⟨_, hw⟩ <;> rw [hw] <;> exact hia
  · have hia := childAttack_unmarkedIntact _ _ _ a hinv ha
    rcases hcase with ⟨_, _, hw⟩ | ⟨_, hw⟩ <;> rw [hw] <;> exact hia

/-- C11: in every state reached from a fresh setup (both trackers empty, both
grids holding only empty and ship cells) by calls of `playGame`, a call that
makes an attack changes the defender's grid at the target cell only: the
target held a ship (`1`) and now holds a hit (`2`), reported as `1`, or it was
empty (`0`) and now holds a miss (`-1`), reported as `0`.  Cells that already
hold a hit or a miss keep their value, and the attacker's own grid is
unchanged. -/
theorem attack_cell_transitions (w0 : World) (n : Nat) (w w1 : World) (ret : Bool)
    (hfresh : FreshSetup w0.gameState) (hreach : playGameTimes n w0 = some w)
    (hphase : w.gameState.gameStatus0 ≠ GAME_OVER) (hstep : playGame w = some (w1, ret)) :
    (w.gameState.gameStatus1 = PARENT_TURN →
      ∃ a : AttackOutcome, parentAttack w.gameState w.parentHunt w.draws = some a ∧
        ∃ r0 c0 : Fin 8, (c0.val : Int) = a.hitX ∧ (r0.val : Int) = a.hitY ∧
          ((w.gameState.childGrid r0 c0 = 1 ∧ a.result = 1 ∧
              w1.gameState.childGrid r0 c0 = 2) ∨
            (w.gameState.childGrid r0 c0 = 0 ∧ a.result = 0 ∧
              w1.gameState.childGrid r0 c0 = -1)) ∧
          (∀ r c : Fin 8, ¬ (r = r0 ∧ c = c0) →
            w1.gameState.childGrid r c = w.gameState.childGrid r c) ∧
          (∀ r c : Fin 8, w.gameState.childGrid r c = 2 ∨ w.gameState.childGrid r c = -1 →
            w1.gameState.childGrid r c = w.gameState.childGrid r c) ∧
          w1.gameState.parentGrid = w.gameState.parentGrid) ∧
    (w.gameState.gameStatus1 = CHILD_TURN →
      ∃ a : AttackOutcome, childAttack w.gameState w.childHunt w.draws = some a ∧
        ∃ r0 c0 : Fin 8, (c0.val : Int) = a.hitX ∧ (r0.val : Int) = a.hitY ∧
          ((w.gameState.parentGrid r0 c0 = 1 ∧ a.result = 1 ∧
              w1.gameState.parentGrid r0 c0 = 2) ∨
            (w.gameState.parentGrid r0 c0 = 0 ∧ a.result = 0 ∧
              w1.gameState.parentGrid r0 c0 = -1)) ∧
          (∀ r c : Fin 8, ¬ (r = r0 ∧ c = c0) →
            w1.gameState.parentGrid r c = w.gameState.parentGrid r c) ∧
          (∀ r c : Fin 8, w.gameState.parentGrid r c = 2 ∨ w.gameState.parentGrid r c = -1 →
            w1.gameState.parentGrid r c = w.gameState.parentGrid r c) ∧
          w1.gameState.childGrid = w.gameState.childGrid) := by
  have hinv : UnmarkedIntact w.gameState :=
    playGameTimes_keeps UnmarkedIntact playGame_unmarkedIntact n w0 w
      (unmarkedIntact_of_fresh _ hfresh) hreach
  constructor
  · intro hturn
    obtain ⟨a, ha, hcase⟩ := playGame_parent w w1 ret hphase hturn hstep
    obtain ⟨r0, c0, e1, e2, hz, _, _, hpg, _, _, hres⟩ :=
      parentAttack_cells w.gameState w.parentHunt w.draws a ha
    have hcg : w1.gameState.childGrid = a.gameState.childGrid := by
      rcases hcase with ⟨_, _, hw⟩ | ⟨_, _, hw⟩ <;> rw [hw]
    have hpg1 : w1.gameState.parentGrid = a.gameState.parentGrid := by
      rcases hcase with ⟨_, _, hw⟩ | ⟨_, _, hw⟩ <;> rw [hw]
    have hold := hinv.1 r0 c0 hz
    have hcells : ∃ v : Int, ∀ r c : Fin 8, a.gameState.childGrid r c =
        if r = r0 ∧ c = c0 then v else w.gameState.childGrid r c := by
      rcases hres with ⟨_, _, hg⟩ | ⟨_, _, hg⟩
      · exact ⟨2, hg⟩
      · exact ⟨-1, hg⟩
    obtain ⟨v, hv⟩ := hcells
    refine ⟨a, ha, r0, c0, e1, e2, ?_, ?_, ?_, by rw [hpg1, hpg]⟩
    · rcases hres with ⟨h1, h2, hg⟩ | ⟨h1, h2, hg⟩
      · exact Or.inl ⟨h1, h2, by rw [hcg, hg, if_pos ⟨rfl, rfl⟩]⟩
      · rcases hold with h0 | h0
        · exact Or.inr ⟨h0, h2, by rw [hcg, hg, if_pos ⟨rfl, rfl⟩]⟩
        · exact absurd h0 h1
    · intro r c hne
      rw [hcg, hv, if_neg hne]
    · intro r c hdone
      have hne : ¬ (r = r0 ∧ c = c0) := by
        rintro ⟨hr, hc⟩
        subst hr hc
        rcases hold with h0 | h0 <;> rcases hdone with h2 | h2 <;> rw [h0] at h2 <;>
          exact absurd h2 (by decide)
      rw [hcg, hv, if_neg hne]
  · intro hturn
    obtain ⟨a, ha, hcase⟩ := playGame_child w w1 ret hphase hturn hstep
    obtain ⟨r0, c0, e1, e2, hz, _, _, hcg0, _, _, hres⟩ :=
      childAttack_cells w.gameState w.childHunt w.draws a ha
    have hpg : w1.gameState.parentGrid = a.gameState.parentGrid := by
      rcases hcase with ⟨_, _, hw⟩ | ⟨_, _, hw⟩ <;> rw [hw]
    have hcg1 : w1.gameState.childGrid = a.gameState.childGrid := by
      rcases hcase with ⟨_, _, hw⟩ | ⟨_, _, hw⟩ <;> rw [hw]
    have hold := hinv.2 r0 c0 hz
    have hcells : ∃ v : Int, ∀ r c : Fin 8, a.gameState.parentGrid r c =
        if r = r0 ∧ c = c0 then v else w.gameState.parentGrid r c := by
      rcases hres with ⟨_, _, hg⟩ | ⟨_, _, hg⟩
      · exact ⟨2, hg⟩
      · exact ⟨-1, hg⟩
    obtain ⟨v, hv⟩ := hcells
    refine ⟨a, ha, r0, c0, e1, e2, ?_, ?_, ?_, by rw [hcg1, hcg0]⟩
    · rcases hres with ⟨h1, h2, hg⟩ | ⟨h1, h2, hg⟩
      · exact Or.inl ⟨h1, h2, by rw [hpg, hg, if_pos ⟨rfl, rfl⟩]⟩
      · rcases hold with h0 | h0
        · exact Or.inr ⟨h0, h2, by rw [hpg, hg, if_pos ⟨rfl, rfl⟩]⟩
        · exact absurd h0 h1
    · intro r c hne
      rw [hpg, hv, if_neg hne]
    · intro r c hdone
      have hne : ¬ (r = r0 ∧ c = c0) := by
        rintro ⟨hr, hc⟩
        subst hr hc
        rcases hold with h0 | h0 <;> rcases hdone with h2 | h2 <;> rw [h0] at h2 <;>
          exact absurd h2 (by decide)
      rw [hpg, hv, if_neg hne]

/-- C11 in `scenarioWorld` after two calls (the parent hit `(0,0)`, the child
missed `(5,5)`): the third call is the parent's attack, and the transition
property holds for it. -/
theorem attack_cell_transitions_witness :
    ∃ (w w1 : World) (ret : Bool),
      FreshSetup scenarioWorld.gameState ∧ playGameTimes 2 scenarioWorld = some w ∧
      w.gameState.gameStatus0 ≠ GAME_OVER ∧ playGame w = some (w1, ret) ∧
      ∃ a : AttackOutcome, parentAttack w.gameState w.parentHunt w.draws = some a ∧
        ∃ r0 c0 : Fin 8, (c0.val : Int) = a.hitX ∧ (r0.val : Int) = a.hitY ∧
          ((w.gameState.childGrid r0 c0 = 1 ∧ a.result = 1 ∧
              w1.gameState.childGrid r0 c0 = 2) ∨
            (w.gameState.childGrid r0 c0 = 0 ∧ a.result = 0 ∧
              w1.gameState.childGrid r0 c0 = -1)) ∧
          (∀ r c : Fin 8, ¬ (r = r0 ∧ c = c0) →
            w1.gameState.childGrid r c = w.gameState.childGrid r c) ∧
          (∀ r c : Fin 8, w.gameState.childGrid r c = 2 ∨ w.gameState.childGrid r c = -1 →
            w1.gameState.childGrid r c = w.gameState.childGrid r c) ∧
          w1.gameState.parentGrid = w.gameState.parentGrid := by
  have hfresh : FreshSetup scenarioWorld.gameState := by
    unfold FreshSetup
    decide
  have hst : (playGameTimes 2 scenarioWorld).map
      (fun w => (w.gameState.gameStatus0, w.gameState.gameStatus1)) =
      some (GAME_CONTINUE, PARENT_TURN) := by decide
  have hnext : ((playGameTimes 2 scenarioWorld).bind playGame).isSome = true := by decide
  match hw : playGameTimes 2 scenarioWorld with
  | none =>
    rw [hw] at hst
    exact absurd hst (by simp)
  | some w =>
    rw [hw] at hst hnext
    simp only [Option.map_some', Option.some.injEq, Prod.mk.injEq] at hst
    simp only [Option.some_bind] at hnext
    obtain ⟨res, hres⟩ := Option.isSome_iff_exists.1 hnext
    have hphase : w.gameState.gameStatus0 ≠ GAME_OVER := by
      rw [hst.1]
      decide
    exact ⟨w, res.1, res.2, hfresh, rfl, hphase, hres,
      (attack_cell_transitions scenarioWorld 2 w res.1 res.2 hfresh hw hphase hres).1 hst.2⟩

/-! ## Hunt memory -/

theorem firstValidNeighbour_eq_none_iff (ac : Grid) (hx hy : Int) :
    firstValidNeighbour ac hx hy = none ↔
      isValidAttack ac (hx - 1) hy = 0 ∧ isValidAttack ac (hx + 1) hy = 0 ∧
      isValidAttack ac hx (hy - 1) = 0 ∧ isValidAttack ac hx (hy + 1) = 0 := by
  unfold firstValidNeighbour
  by_cases h1 : isValidAttack ac (hx - 1) hy = 0
  · by_cases h2 : isValidAttack ac (hx + 1) hy = 0
    · by_cases h3 : isValidAttack ac hx (hy - 1) = 0
      · by_cases h4 : isValidAttack ac hx (hy + 1) = 0
        · simp [h1, h2, h3, h4]
        · simp [h1, h2, h3, h4]
      · simp [h1, h2, h3]
    · simp [h1, h2]
  · simp [h1]

theorem selectTarget_cases (ac : Grid) (hunt : Hunt) (draws : List Nat) (t : Target)
    (h : selectTarget ac hunt draws = some t) :
    (hunt.Pending ∧ firstValidNeighbour ac hunt.lastHitX hunt.lastHitY = some (t.x, t.y) ∧
        t.hunt = hunt ∧ t.draws = draws) ∨
    (hunt.Pending ∧ firstValidNeighbour ac hunt.lastHitX hunt.lastHitY = none ∧
        t.hunt = ⟨-1, -1⟩ ∧ randomLoop ac draws = some (t.x, t.y, t.draws)) ∨
    (¬ hunt.Pending ∧ t.hunt = hunt ∧ randomLoop ac draws = some (t.x, t.y, t.draws)) := by
  unfold selectTarget at h
  rw [huntLoop_directions] at h
  split at h
  · rename_i hp
    split at h
    · rename_i x y hh
      simp only [Option.some.injEq] at h
      subst h
      exact Or.inl ⟨hp, hh, rfl, rfl⟩
    · rename_i hh
      split at h
      · rename_i x y rest hr
        simp only [Option.some.injEq] at h
        subst h
        exact Or.inr (Or.inl ⟨hp, hh, rfl, hr⟩)
      · exact absurd h (by simp)
  · rename_i hp
    split at h
    · rename_i x y rest hr
      simp only [Option.some.injEq] at h
      subst h
      exact Or.inr (Or.inr ⟨hp, rfl, hr⟩)
    · exact absurd h (by simp)

/-- What an attack does to the statics, given how `selectTarget` chose. -/
theorem hunt_after_select (ac : Grid) (hunt : Hunt) (draws : List Nat) (t : Target)
    (h : selectTarget ac hunt draws = some t) :
    (hunt.Pending → ((t.x, t.y) = (hunt.lastHitX - 1, hunt.lastHitY) ∨
        (t.x, t.y) = (hunt.lastHitX + 1, hunt.lastHitY) ∨
        (t.x, t.y) = (hunt.lastHitX, hunt.lastHitY - 1) ∨
        (t.x, t.y) = (hunt.lastHitX, hunt.lastHitY + 1)) → t.hunt = hunt) ∧
    ((¬ hunt.Pending ∨
        (isValidAttack ac (hunt.lastHitX - 1) hunt.lastHitY = 0 ∧
          isValidAttack ac (hunt.lastHitX + 1) hunt.lastHitY = 0 ∧
          isValidAttack ac hunt.lastHitX (hunt.lastHitY - 1) = 0 ∧
          isValidAttack ac hunt.lastHitX (hunt.lastHitY + 1) = 0)) → ¬ t.hunt.Pending) := by
  have hvalid := selectTarget_valid ac hunt draws t h
  rcases selectTarget_cases ac hunt draws t h with
    ⟨_, hf, hh, _⟩ | ⟨_, hf, hh, _⟩ | ⟨hnp, hh, _⟩
  · refine ⟨fun _ _ => hh, ?_⟩
    rintro (hnp | hall)
    · rw [hh]
      exact hnp
    · rw [(firstValidNeighbour_eq_none_iff ac _ _).2 hall] at hf
      exact absurd hf (by simp)
  · rw [firstValidNeighbour_eq_none_iff] at hf
    obtain ⟨h1, h2, h3, h4⟩ := hf
    constructor
    · intro _ hnb
      exfalso
      rcases hnb with e | e | e | e
      · have ex : t.x = hunt.lastHitX - 1 := congrArg Prod.fst e
        have ey : t.y = hunt.lastHitY := congrArg Prod.snd e
        rw [ex, ey] at hvalid
        exact hvalid h1
      · have ex : t.x = hunt.lastHitX + 1 := congrArg Prod.fst e
        have ey : t.y = hunt.lastHitY := congrArg Prod.snd e
        rw [ex, ey] at hvalid
        exact hvalid h2
      · have ex : t.x = hunt.lastHitX := congrArg Prod.fst e
        have ey : t.y = hunt.lastHitY - 1 := congrArg Prod.snd e
        rw [ex, ey] at hvalid
        exact hvalid h3
      · have ex : t.x = hunt.lastHitX := congrArg Prod.fst e
        have ey : t.y = hunt.lastHitY + 1 := congrArg Prod.snd e
        rw [ex, ey] at hvalid
        exact hvalid h4
    · intro _
      rw [hh]
      rintro ⟨hx, _⟩
      exact hx rfl
  · refine ⟨fun hp _ => absurd hp hnp, fun _ => ?_⟩
    rw [hh]
    exact hnp

/-- C12: for a call of `parentAttack` (resp. `childAttack`) that returns, the
result is `1` (hit) or `0` (miss).  After a hit the statics hold the attacked
coordinate.  After a miss on one of the four neighbours of a pending hunt
coordinate the statics are unchanged.  After a miss when no hunt was pending,
or when all four neighbours were invalid, no hunt is pending afterwards.  A
call of `playGame` never changes the statics of the side that does not
attack. -/
theorem hunt_memory_spec (gs : GameState) (hunt : Hunt) (draws : List Nat)
    (a : AttackOutcome) :
    (parentAttack gs hunt draws = some a →
      (a.result = 1 ∨ a.result = 0) ∧
      (a.result = 1 → a.hunt = ⟨a.hitX, a.hitY⟩) ∧
      (a.result = 0 → hunt.Pending →
        ((a.hitX, a.hitY) = (hunt.lastHitX - 1, hunt.lastHitY) ∨
          (a.hitX, a.hitY) = (hunt.lastHitX + 1, hunt.lastHitY) ∨
          (a.hitX, a.hitY) = (hunt.lastHitX, hunt.lastHitY - 1) ∨
          (a.hitX, a.hitY) = (hunt.lastHitX, hunt.lastHitY + 1)) →
        a.hunt = hunt) ∧
      (a.result = 0 →
        (¬ hunt.Pending ∨
          (isValidAttack gs.parentAttackedCells (hunt.lastHitX - 1) hunt.lastHitY = 0 ∧
            isValidAttack gs.parentAttackedCells (hunt.lastHitX + 1) hunt.lastHitY = 0 ∧
            isValidAttack gs.parentAttackedCells hunt.lastHitX (hunt.lastHitY - 1) = 0 ∧
            isValidAttack gs.parentAttackedCells hunt.lastHitX (hunt.lastHitY + 1) = 0)) →
        ¬ a.hunt.Pending)) ∧
    (childAttack gs hunt draws = some a →
      (a.result = 1 ∨ a.result = 0) ∧
      (a.result = 1 → a.hunt = ⟨a.hitX, a.hitY⟩) ∧
      (a.result = 0 → hunt.Pending →
        ((a.hitX, a.hitY) = (hunt.lastHitX - 1, hunt.lastHitY) ∨
          (a.hitX, a.hitY) = (hunt.lastHitX + 1, hunt.lastHitY) ∨
          (a.hitX, a.hitY) = (hunt.lastHitX, hunt.lastHitY - 1) ∨
          (a.hitX, a.hitY) = (hunt.lastHitX, hunt.lastHitY + 1)) →
        a.hunt = hunt) ∧
      (a.result = 0 →
        (¬ hunt.Pending ∨
          (isValidAttack gs.childAttackedCells (hunt.lastHitX - 1) hunt.lastHitY = 0 ∧
            isValidAttack gs.childAttackedCells (hunt.lastHitX + 1) hunt.lastHitY = 0 ∧
            isValidAttack gs.childAttackedCells hunt.lastHitX (hunt.lastHitY - 1) = 0 ∧
            isValidAttack gs.childAttackedCells hunt.lastHitX (hunt.lastHitY + 1) = 0)) →
        ¬ a.hunt.Pending)) ∧
    (∀ (w w1 : World) (ret : Bool), playGame w = some (w1, ret) →
      (w.gameState.gameStatus1 = PARENT_TURN → w1.childHunt = w.childHunt) ∧
      (w.gameState.gameStatus1 = CHILD_TURN → w1.parentHunt = w.parentHunt)) := by
  refine ⟨?_, ?_, ?_⟩
  · intro h
    obtain ⟨t, ht, hx, hy, _, _, _, _, _, _, hres⟩ := parentAttack_inv gs hunt draws a h
    obtain ⟨hkeep, hclear⟩ := hunt_after_select gs.parentAttackedCells hunt draws t ht
    rw [← hx, ← hy] at hkeep
    rcases hres with ⟨_, h1, hh, _⟩ | ⟨_, h0, hh, _⟩
    · refine ⟨Or.inl h1, fun _ => by rw [hh, hx, hy], ?_, ?_⟩
      · intro hz
        rw [h1] at hz
        exact absurd hz (by decide)
      · intro hz
        rw [h1] at hz
        exact absurd hz (by decide)
    · refine ⟨Or.inr h0, ?_, ?_, ?_⟩
      · intro hz
        rw [h0] at hz
        exact absurd hz (by decide)
      · intro _ hp hnb
        rw [hh]
        exact hkeep hp hnb
      · intro _ hcond
        rw [hh]
        exact hclear hcond
  · intro h
    obtain ⟨t, ht, hx, hy, _, _, _, _, _, _, hres⟩ := childAttack_inv gs hunt draws a h
    obtain ⟨hkeep, hclear⟩ := hunt_after_select gs.childAttackedCells hunt draws t ht
    rw [← hx, ← hy] at hkeep
    rcases hres with ⟨_, h1, hh, _⟩ | ⟨_, h0, hh, _⟩
    · refine ⟨Or.inl h1, fun _ => by rw [hh, hx, hy], ?_, ?_⟩
      · intro hz
        rw [h1] at hz
        exact absurd hz (by decide)
      · intro hz
        rw [h1] at hz
        exact absurd hz (by decide)
    · refine ⟨Or.inr h0, ?_, ?_, ?_⟩
      · intro hz
        rw [h0] at hz
        exact absurd hz (by decide)
      · intro _ hp hnb
        rw [hh]
        exact hkeep hp hnb
      · intro _ hcond
        rw [hh]
        exact hclear hcond
  · intro w w1 ret h
    by_cases h0 : w.gameState.gameStatus0 = GAME_OVER
    · have hw : w1 = w := by
        unfold playGame at h
        rw [if_pos h0] at h
        simp only [Option.some.injEq, Prod.mk.injEq] at h
        exact h.1.symm
      rw [hw]
      exact ⟨fun _ => rfl, fun _ => rfl⟩
    · constructor
      · intro hp
        obtain ⟨a, _, hcase⟩ := playGame_parent w w1 ret h0 hp h
        rcases hcase with ⟨_, _, hw⟩ | ⟨_, _, hw⟩ <;> rw [hw]
      · intro hc
        obtain ⟨a, _, hcase⟩ := playGame_child w w1 ret h0 hc h
        rcases hcase with ⟨_, _, hw⟩ | ⟨_, _, hw⟩ <;> rw [hw]

/-- C12 on `huntSampleState` with the hunt at `(3, 3)`: `parentAttack` misses on
the neighbour `(3, 2)` and the statics still hold `(3, 3)`. -/
theorem hunt_memory_spec_witness :
    ∃ a : AttackOutcome, parentAttack huntSampleState ⟨3, 3⟩ [] = some a ∧
      a.result = 0 ∧ a.hitX = 3 ∧ a.hitY = 2 ∧ a.hunt = ⟨3, 3⟩ := by
  have hfacts : (parentAttack huntSampleState ⟨3, 3⟩ []).map
      (fun a => (a.result, a.hitX, a.hitY)) = some (0, 3, 2) := by decide
  match ha : parentAttack huntSampleState ⟨3, 3⟩ [] with
  | none =>
    rw [ha] at hfacts
    exact absurd hfacts (by simp)
  | some a =>
    rw [ha] at hfacts
    simp only [Option.map_some', Option.some.injEq, Prod.mk.injEq] at hfacts
    obtain ⟨hr, hx, hy⟩ := hfacts
    refine ⟨a, rfl, hr, hx, hy, ?_⟩
    exact ((hunt_memory_spec huntSampleState ⟨3, 3⟩ [] a).1 ha).2.2.1 hr
      ⟨by decide, by decide⟩ (Or.inr (Or.inr (Or.inl (by rw [hx, hy]; rfl))))

/-! ## Untargeted cells while the match runs -/

theorem placeAllShips_has_ship (draws : List Nat) (g : Grid) (rest : List Nat)
    (h : placeAllShips initializeGrid draws = some (g, rest)) : ∃ r c : Fin 8, g r c = 1 := by
  obtain ⟨segs, hmap, hbounds, _, hcells⟩ :=
    placeShipsFrom_fleet ships [] initializeGrid draws g rest fleet_initializeGrid h
  match segs, hmap, hbounds, hcells with
  | [], hmap, _, _ => simp [ships] at hmap
  | s :: more, hmap, hbounds, hcells =>
    simp only [ships, List.map_cons, List.map_nil, List.nil_append, List.cons.injEq] at hmap
    have hlen : 0 < s.length := by
      rw [hmap.1]
      decide
    have hp : (if s.horizontal then (s.x + ((0 : Nat) : Int), s.y)
        else (s.x, s.y + ((0 : Nat) : Int))) ∈ s.cells := by
      unfold Segment.cells
      exact List.mem_map.2 ⟨0, List.mem_range.2 hlen, rfl⟩
    have hb := hbounds s (List.mem_cons_self _ _) _ hp
    refine ⟨⟨(if s.horizontal then (s.x + ((0 : Nat) : Int), s.y)
        else (s.x, s.y + ((0 : Nat) : Int))).2.toNat, by omega⟩,
      ⟨(if s.horizontal then (s.x + ((0 : Nat) : Int), s.y)
        else (s.x, s.y + ((0 : Nat) : Int))).1.toNat, by omega⟩, ?_⟩
    refine ((hcells _ _).1).2 ⟨s, List.mem_cons_self _ _, ?_⟩
    simp only [Int.toNat_of_nonneg hb.1.1, Int.toNat_of_nonneg hb.2.1]
    exact hp

theorem onPlaceShips_shipsAfloat (w0 w : World) (h : onPlaceShips w0 = some w) :
    ShipsAfloat w.gameState := by
  unfold onPlaceShips at h
  split at h
  · exact absurd h (by simp)
  · rename_i pg d1 hp
    split at h
    · exact absurd h (by simp)
    · rename_i cg d2 hc
      simp only [Option.some.injEq] at h
      subst h
      exact ⟨fun _ _ _ => rfl, fun _ _ _ => rfl, Or.inl rfl,
        fun _ => ⟨placeAllShips_has_ship _ cg d2 hc, placeAllShips_has_ship _ pg d1 hp⟩⟩

theorem exists_ship_of_checkGameOver (grid : Grid) (h : ¬ checkGameOver grid ≠ 0) :
    ∃ r c, grid r c = 1 := by
  rw [checkGameOver_ne_zero_iff] at h
  by_contra hno
  apply h
  intro r c hrc
  exact hno ⟨r, c, hrc⟩

theorem playGame_shipsAfloat (w w1 : World) (ret : Bool)
    (hinv : ShipsAfloat w.gameState) (h : playGame w = some (w1, ret)) :
    ShipsAfloat w1.gameState := by
  obtain ⟨hcu, hpu, hphase, hships⟩ := hinv
  rcases playGame_gameState w w1 ret h with hsame | ⟨h0, _, a, ha, hcase⟩ | ⟨h0, _, a, ha, hcase⟩
  · rw [hsame]
    exact ⟨hcu, hpu, hphase, hships⟩
  · have hcont : w.gameState.gameStatus0 = GAME_CONTINUE := by
      rcases hphase with hc | ho
      · exact hc
      · exact absurd ho h0
    obtain ⟨hcs, hps⟩ := hships hcont
    obtain ⟨r0, c0, _, _, _, hpa, hca, hpg, hs0, _, hres⟩ :=
      parentAttack_cells w.gameState w.parentHunt w.draws a ha
    have hcells : ∃ v : Int, v ≠ 1 ∧ ∀ r c : Fin 8, a.gameState.childGrid r c =
        if r = r0 ∧ c = c0 then v else w.gameState.childGrid r c := by
      rcases hres with ⟨_, _, hg⟩ | ⟨_, _, hg⟩
      · exact ⟨2, by decide, hg⟩
      · exact ⟨-1, by decide, hg⟩
    obtain ⟨v, hv1, hv⟩ := hcells
    have hcu1 : ∀ r c, a.gameState.childGrid r c = 1 → a.gameState.parentAttackedCells r c = 0 := by
      intro r c hship
      rw [hv] at hship
      rw [hpa]
      by_cases hrc : r = r0 ∧ c = c0
      · rw [if_pos hrc] at hship
        exact absurd hship hv1
      · rw [if_neg hrc] at hship
        rw [if_neg hrc]
        exact hcu r c hship
    have hpu1 : ∀ r c, a.gameState.parentGrid r c = 1 → a.gameState.childAttackedCells r c = 0 := by
      intro r c hship
      rw [hpg] at hship
      rw [hca]
      exact hpu r c hship
    rcases hcase with ⟨_, _, hw⟩ | ⟨hnot, hw⟩
    · rw [hw]
      exact ⟨hcu1, hpu1, Or.inr rfl,
        fun hc => absurd (show GAME_OVER = GAME_CONTINUE from hc) (by decide)⟩
    · rw [hw]
      refine ⟨hcu1, hpu1, Or.inl (by rw [← hcont, ← hs0]), fun _ => ⟨?_, ?_⟩⟩
      · rcases hres with ⟨_, h1, _⟩ | ⟨hmiss, _, hg⟩
        · exact exists_ship_of_checkGameOver _ (fun hover => hnot ⟨h1, hover⟩)
        · obtain ⟨r1, c1, hs⟩ := hcs
          refine ⟨r1, c1, ?_⟩
          show a.gameState.childGrid r1 c1 = 1
          rw [hg, if_neg]
          · exact hs
          · rintro ⟨hr, hc⟩
            subst hr hc
            exact hmiss hs
      · obtain ⟨r1, c1, hs⟩ := hps
        refine ⟨r1, c1, ?_⟩
        show a.gameState.parentGrid r1 c1 = 1
        rw [hpg]
        exact hs
  · have hcont : w.gameState.gameStatus0 = GAME_CONTINUE := by
      rcases hphase with hc | ho
      · exact hc
      · exact absurd ho h0
    obtain ⟨hcs, hps⟩ := hships hcont
    obtain ⟨r0, c0, _, _, _, hca, hpa, hcg, hs0, _, hres⟩ :=
      childAttack_cells w.gameState w.childHunt w.draws a ha
    have hcells : ∃ v : Int, v ≠ 1 ∧ ∀ r c : Fin 8, a.gameState.parentGrid r c =
        if r = r0 ∧ c = c0 then v else w.gameState.parentGrid r c := by
      rcases hres with ⟨_, _, hg⟩ | ⟨_, _, hg⟩
      · exact ⟨2, by decide, hg⟩
      · exact ⟨-1, by decide, hg⟩
    obtain ⟨v, hv1, hv⟩ := hcells
    have hpu1 : ∀ r c, a.gameState.parentGrid r c = 1 → a.gameState.childAttackedCells r c = 0 := by
      intro r c hship
      rw [hv] at hship
      rw [hca]
      by_cases hrc : r = r0 ∧ c = c0
      · rw [if_pos hrc] at hship
        exact absurd hship hv1
      · rw [if_neg hrc] at hship
        rw [if_neg hrc]
        exact hpu r c hship
    have hcu1 : ∀ r c, a.gameState.childGrid r c = 1 → a.gameState.parentAttackedCells r c = 0 := by
      intro r c hship
      rw [hcg] at hship
      rw [hpa]
      exact hcu r c hship
    rcases hcase with ⟨_, _, hw⟩ | ⟨hnot, hw⟩
    · rw [hw]
      exact ⟨hcu1, hpu1, Or.inr rfl,
        fun hc => absurd (show GAME_OVER = GAME_CONTINUE from hc) (by decide)⟩
    · rw [hw]
      refine ⟨hcu1, hpu1, Or.inl (by rw [← hcont, ← hs0]), fun _ => ⟨?_, ?_⟩⟩
      · obtain ⟨r1, c1, hs⟩ := hcs
        refine ⟨r1, c1, ?_⟩
        show a.gameState.childGrid r1 c1 = 1
        rw [hcg]
        exact hs
      · rcases hres with ⟨_, h1, _⟩ | ⟨hmiss, _, hg⟩
        · exact exists_ship_of_checkGameOver _ (fun hover => hnot ⟨h1, hover⟩)
        · obtain ⟨r1, c1, hs⟩ := hps
          refine ⟨r1, c1, ?_⟩
          show a.gameState.parentGrid r1 c1 = 1
          rw [hg, if_neg]
          · exact hs
          · rintro ⟨hr, hc⟩
            subst hr hc
            exact hmiss hs

theorem randomLoop_of_unmarked (ac : Grid) (r c : Fin 8) (h : ac r c = 0) :
    isValidAttack ac (c.val : Int) (r.val : Int) ≠ 0 ∧
    randomLoop ac [c.val, r.val] = some ((c.val : Int), (r.val : Int), []) := by
  have hr := r.isLt
  have hc := c.isLt
  have hv : isValidAttack ac (c.val : Int) (r.val : Int) ≠ 0 := by
    rw [isValidAttack_ne_zero_iff, read_coe]
    exact ⟨by omega, h⟩
  refine ⟨hv, ?_⟩
  simp only [randomLoop, Nat.mod_eq_of_lt hr, Nat.mod_eq_of_lt hc]
  rw [if_pos hv]

theorem selectTarget_of_unmarked (ac : Grid) (hunt : Hunt) (r c : Fin 8) (h : ac r c = 0) :
    ∃ t : Target, selectTarget ac hunt [c.val, r.val] = some t := by
  have hrand := (randomLoop_of_unmarked ac r c h).2
  unfold selectTarget
  split
  · split
    · exact ⟨_, rfl⟩
    · rw [hrand]
      exact ⟨_, rfl⟩
  · rw [hrand]
    exact ⟨_, rfl⟩

theorem parentAttack_of_unmarked (gs : GameState) (hunt : Hunt) (r c : Fin 8)
    (h : gs.parentAttackedCells r c = 0) :
    ∃ a : AttackOutcome, parentAttack gs hunt [c.val, r.val] = some a := by
  obtain ⟨t, ht⟩ := selectTarget_of_unmarked gs.parentAttackedCells hunt r c h
  unfold parentAttack
  rw [ht]
  simp only
  split
  · exact ⟨_, rfl⟩
  · exact ⟨_, rfl⟩

theorem childAttack_of_unmarked (gs : GameState) (hunt : Hunt) (r c : Fin 8)
    (h : gs.childAttackedCells r c = 0) :
    ∃ a : AttackOutcome, childAttack gs hunt [c.val, r.val] = some a := by
  obtain ⟨t, ht⟩ := selectTarget_of_unmarked gs.childAttackedCells hunt r c h
  unfold childAttack
  rw [ht]
  simp only
  split
  · exact ⟨_, rfl⟩
  · exact ⟨_, rfl⟩

/-- C13: in every state with phase `GAME_CONTINUE` that is reached from a fresh
setup made by `onPlaceShips` (both fleets placed by `placeAllShips`, both
trackers empty, parent to move) by calls of `playGame`, the tracker of each
side, so in particular of the side to move, has a cell of the 8x8 grid that is
still unmarked: `isValidAttack` accepts it, the sampling loop returns it when
it is drawn, and the attack function returns on those draws. -/
theorem tracker_has_unmarked_cell (w0 w : World) (n : Nat) (ws : World)
    (hsetup : onPlaceShips w0 = some w) (hreach : playGameTimes n w = some ws)
    (hphase : ws.gameState.gameStatus0 = GAME_CONTINUE) :
    (∃ r c : Fin 8, ws.gameState.parentAttackedCells r c = 0 ∧
      isValidAttack ws.gameState.parentAttackedCells (c.val : Int) (r.val : Int) ≠ 0 ∧
      randomLoop ws.gameState.parentAttackedCells [c.val, r.val] =
        some ((c.val : Int), (r.val : Int), []) ∧
      ∃ a : AttackOutcome,
        parentAttack ws.gameState ws.parentHunt [c.val, r.val] = some a) ∧
    (∃ r c : Fin 8, ws.gameState.childAttackedCells r c = 0 ∧
      isValidAttack ws.gameState.childAttackedCells (c.val : Int) (r.val : Int) ≠ 0 ∧
      randomLoop ws.gameState.childAttackedCells [c.val, r.val] =
        some ((c.val : Int), (r.val : Int), []) ∧
      ∃ a : AttackOutcome,
        childAttack ws.gameState ws.childHunt [c.val, r.val] = some a) := by
  have hinv : ShipsAfloat ws.gameState :=
    playGameTimes_keeps ShipsAfloat playGame_shipsAfloat n w ws
      (onPlaceShips_shipsAfloat w0 w hsetup) hreach
  obtain ⟨hcu, hpu, _, hships⟩ := hinv
  obtain ⟨⟨rc, cc, hc⟩, ⟨rp, cp, hp⟩⟩ := hships hphase
  have hzc := hcu rc cc hc
  have hzp := hpu rp cp hp
  exact ⟨⟨rc, cc, hzc, (randomLoop_of_unmarked _ rc cc hzc).1,
      (randomLoop_of_unmarked _ rc cc hzc).2, parentAttack_of_unmarked _ _ rc cc hzc⟩,
    ⟨rp, cp, hzp, (randomLoop_of_unmarked _ rp cp hzp).1,
      (randomLoop_of_unmarked _ rp cp hzp).2, childAttack_of_unmarked _ _ rp cp hzp⟩⟩

/-- C13 after `onPlaceShips` on the draws `sampleMatchDraws` and two calls of
`playGame` (the parent attacks `(0, 0)`, the child `(7, 7)`): the phase is
`GAME_CONTINUE` and both trackers have an unmarked cell. -/
theorem tracker_has_unmarked_cell_witness :
    ∃ w ws : World,
      onPlaceShips (initialWorld sampleMatchDraws) = some w ∧
      playGameTimes 2 w = some ws ∧
      ws.gameState.gameStatus0 = GAME_CONTINUE ∧
      (∃ r c : Fin 8, ws.gameState.parentAttackedCells r c = 0 ∧
        isValidAttack ws.gameState.parentAttackedCells (c.val : Int) (r.val : Int) ≠ 0 ∧
        randomLoop ws.gameState.parentAttackedCells [c.val, r.val] =
          some ((c.val : Int), (r.val : Int), []) ∧
        ∃ a : AttackOutcome,
          parentAttack ws.gameState ws.parentHunt [c.val, r.val] = some a) ∧
      (∃ r c : Fin 8, ws.gameState.childAttackedCells r c = 0 ∧
        isValidAttack ws.gameState.childAttackedCells (c.val : Int) (r.val : Int) ≠ 0 ∧
        randomLoop ws.gameState.childAttackedCells [c.val, r.val] =
          some ((c.val : Int), (r.val : Int), []) ∧
        ∃ a : AttackOutcome,
          childAttack ws.gameState ws.childHunt [c.val, r.val] = some a) := by
  have hfacts : ((onPlaceShips (initialWorld sampleMatchDraws)).bind (playGameTimes 2)).map
      (fun w => w.gameState.gameStatus0) = some GAME_CONTINUE := by decide!
  match hw : onPlaceShips (initialWorld sampleMatchDraws) with
  | none =>
    rw [hw] at hfacts
    exact absurd hfacts (by simp)
  | some w =>
    rw [hw] at hfacts
    simp only [Option.some_bind] at hfacts
    match hs : playGameTimes 2 w with
    | none =>
      rw [hs] at hfacts
      exact absurd hfacts (by simp)
    | some ws =>
      rw [hs] at hfacts
      simp only [Option.map_some', Option.some.injEq] at hfacts
      exact ⟨w, ws, rfl, hs, hfacts,
        tracker_has_unmarked_cell (initialWorld sampleMatchDraws) w 2 ws hw hs hfacts⟩

end AdmiralSink
